import Mathlib

/-!
# Request construction and response decoding of the Flink REST client

A shallow embedding of `jar.go` and `job.go`.  Every operation of the client is
a Lean function returning a `Run`: the events it caused (requests handed to the
transport, JSON documents handed to the decoder) and how it ended (a normal
return, or a run-time panic).

Go strings are modelled as Lean strings (the text they hold as UTF-8): the
inputs range over the Go strings that are valid UTF-8.  Where the standard
library would produce or meet bytes that are not UTF-8, the definition
concerned says what the model does.

What the client's sources do not define is a parameter:
* the transport `httpClient` (field `client` of `Client`);
* the `Platform`: the checks of `net/url` on the authority, path and fragment
  of a URL text, the file system, the boundary of a multipart body, and the
  decoding of JSON into slices, maps and interfaces.
The parts of the Go standard library the results depend on are modelled here
after Go 1.22: `url.Parse` up to the extraction of the query, `url.Values`,
`encoding/json` for structs, strings, booleans and integers.
-/

set_option autoImplicit false

namespace FlinkClient

/-! ## Errors, outcomes, traces -/

/-- A Go `error` value. -/
inductive GoError where
  /-- value of `errors.New` / `fmt.Errorf` -/
  | errorString (msg : String)
  /-- value of type `*url.Error` -/
  | urlError (op : String) (url : String) (msg : String)
  /-- value of type `*json.SyntaxError` -/
  | jsonSyntax (msg : String)
  /-- value of type `*json.UnmarshalTypeError`: the JSON value and the Go type -/
  | jsonType (value : String) (type : String)
  /-- an error produced by the transport or by the operating system -/
  | external (tag : String)
  deriving DecidableEq, Repr

/-! ## `strings`, `strconv` -/

/-- Go `strings.HasPrefix(s, pre)`. -/
def strings.HasPrefix (s pre : String) : Bool :=
  pre.data.isPrefixOf s.data

/-- Go `strings.Join(elems, sep)`. -/
def strings.Join : List String → String → String
  | [], _ => ""
  | [a], _ => a
  | a :: b :: rest, sep => a ++ sep ++ strings.Join (b :: rest) sep

/-- Go `strconv.Itoa(i)`: the decimal text of `i`. -/
def strconv.Itoa (i : Int) : String :=
  toString i

/-- Go `strconv.FormatBool(b)`. -/
def strconv.FormatBool (b : Bool) : String :=
  if b then "true" else "false"

/-- Go `strings.Cut(s, sep)` for a one-byte separator, on character lists:
the text before the first `sep`, the text after it, and whether `sep` occurs. -/
def cutAt (sep : Char) : List Char → List Char × List Char × Bool
  | [] => ([], [], false)
  | c :: cs =>
    if c = sep then ([], cs, true)
    else
      let r := cutAt sep cs
      (c :: r.1, r.2.1, r.2.2)

/-- The pieces of a text between the occurrences of `sep`; a text without `sep` is
one piece, itself. -/
def splitSep (sep : Char) : List Char → List (List Char)
  | [] => [[]]
  | c :: cs =>
    if c = sep then [] :: splitSep sep cs
    else
      match splitSep sep cs with
      | [] => [[c]]
      | seg :: segs => (c :: seg) :: segs

/-- Go `strings.Split(s, sep)` for a one-byte separator. -/
def strings.Split (s : String) (sep : Char) : List String :=
  (splitSep sep s.data).map String.mk

/-! ## Go values and their types -/

/-- A JSON document.  A number keeps its literal. -/
inductive JSON where
  | null
  | bool (b : Bool)
  | number (lit : String)
  | string (s : String)
  | array (items : List JSON)
  | object (members : List (String × JSON))
  deriving Repr

/-- The Go types of the client's responses.  A field of a struct is its Go name,
its name in JSON (from the tag) and its type. -/
inductive GoType where
  | string
  | bool
  | int
  | int64
  /-- type `interface{}` -/
  | any
  /-- type `map[string]interface{}` -/
  | mapAny
  | slice (elem : GoType)
  | struct (name : String) (fields : List (String × String × GoType))
  deriving Repr

/-- The values of those types.  A `float64` held by an interface is named by a
literal that denotes it. -/
inductive GoValue where
  | str (s : String)
  | bool (b : Bool)
  | int (n : Int)
  | float (lit : String)
  /-- the nil slice, the nil map, the nil interface -/
  | nil
  | slice (items : List GoValue)
  | map (entries : List (String × GoValue))
  | struct (fields : List (String × GoValue))
  deriving Repr

mutual
/-- The zero value of a type. -/
def GoType.zero : GoType → GoValue
  | .string => .str ""
  | .bool => .bool false
  | .int => .int 0
  | .int64 => .int 0
  | .any => .nil
  | .mapAny => .nil
  | .slice _ => .nil
  | .struct _ fs => .struct (zeroFields fs)
/-- The zero values of the fields of a struct. -/
def zeroFields : List (String × String × GoType) → List (String × GoValue)
  | [] => []
  | (name, _, t) :: rest => (name, t.zero) :: zeroFields rest
end

/-- The value of field `name` among the fields of a struct (`dflt` when there is
no such field). -/
def getFieldIn (name : String) (dflt : GoValue) : List (String × GoValue) → GoValue
  | [] => dflt
  | (n, v) :: rest => if n = name then v else getFieldIn name dflt rest

/-- Field `name` of a struct value (the value itself when it has no such field). -/
def GoValue.field (v : GoValue) (name : String) : GoValue :=
  match v with
  | .struct fs => getFieldIn name v fs
  | _ => v

/-- The fields of a struct with field `name` set to `x`. -/
def setFieldIn (name : String) (x : GoValue) : List (String × GoValue) → List (String × GoValue)
  | [] => []
  | (n, v) :: rest => if n = name then (n, x) :: rest else (n, v) :: setFieldIn name x rest

/-- A struct value with field `name` set to `x`. -/
def GoValue.setField : GoValue → String → GoValue → GoValue
  | .struct fs, name, x => .struct (setFieldIn name x fs)
  | v, _, _ => v

/-! ## `net/url` -/

/-- Collaborators supplied by the Go run time rather than by the client. -/
structure Platform where
  /-- From `net/url`: the complaint, if any, about the part of a URL text between its
  scheme and its query (a rootless part, or authority and path); arguments are
  the scheme and that part. -/
  checkRest : String → String → Option String
  /-- From `net/url`: the complaint, if any, about the escapes of a fragment. -/
  checkFragment : String → Option String
  /-- Result of `os.Open` followed by reading the file to its end: the bytes read
  and the error that ended the reading (if it was not end-of-file); or the
  error of opening. -/
  openFile : String → Except GoError (String × Option GoError)
  /-- Boundary chosen by `multipart.NewWriter`. -/
  boundary : String
  /-- From `encoding/json`: the decoding of a document into a slice, a map or an
  interface holding the given value; the new value and the errors saved. -/
  decodeOther : GoType → JSON → GoValue → GoValue × List GoError

/-- The fields of `url.URL`.  `Rest` holds the text from which the standard
library derives `Opaque`, `User`, `Host` and `Path`, and `Fragment` the text
after `#`; the model keeps both as written. -/
structure url.URL where
  Scheme : String
  Rest : String
  ForceQuery : Bool
  RawQuery : String
  Fragment : String
  deriving DecidableEq, Repr

/-- Go `stringContainsCTLByte`: an ASCII control character occurs. -/
def stringContainsCTLByte (s : List Char) : Bool :=
  s.any fun c => decide (c.val < 0x20) || decide (c.val = 0x7f)

/-- Loop of `getScheme`: `seen` is the text scanned so far, `whole` the full text.
Returns the scheme (empty when there is none) and what follows it. -/
def getSchemeLoop (whole : List Char) : List Char → List Char → Except String (List Char × List Char)
  | _, [] => .ok ([], whole)
  | seen, c :: cs =>
    if c.isAlpha then getSchemeLoop whole (seen ++ [c]) cs
    else if c.isDigit || c = '+' || c = '-' || c = '.' then
      if seen.isEmpty then .ok ([], whole) else getSchemeLoop whole (seen ++ [c]) cs
    else if c = ':' then
      if seen.isEmpty then .error "missing protocol scheme" else .ok (seen, cs)
    else .ok ([], whole)

/-- Go `getScheme(rawURL)`. -/
def getScheme (rawURL : List Char) : Except String (List Char × List Char) :=
  getSchemeLoop rawURL [] rawURL

/-- ASCII lower-casing of `strings.ToLower` as applied to a scheme. -/
def lowerScheme (s : List Char) : String :=
  ⟨s.map Char.toLower⟩

/-- The split of `rest` into the part before the query and the query, in `parse`:
one trailing `?` and no other sets `ForceQuery`; otherwise cut at the first `?`. -/
def splitQuery (rest : List Char) : List Char × Bool × List Char :=
  if rest.getLast? = some '?' ∧ rest.count '?' = 1 then (rest.dropLast, true, [])
  else
    let r := cutAt '?' rest
    (r.1, false, r.2.1)

/-- Go `parse(rawURL, false)`: the URL of a text without fragment, or the complaint. -/
def url.parse (p : Platform) (rawURL : List Char) : Except String url.URL :=
  if stringContainsCTLByte rawURL then .error "net/url: invalid control character in URL"
  else if rawURL = ['*'] then .ok ⟨"", "*", false, "", ""⟩
  else
    match getScheme rawURL with
    | .error msg => .error msg
    | .ok (scheme, rest) =>
      let sq := splitQuery rest
      match p.checkRest (lowerScheme scheme) ⟨sq.1⟩ with
      | some msg => .error msg
      | none => .ok ⟨lowerScheme scheme, ⟨sq.1⟩, sq.2.1, ⟨sq.2.2⟩, ""⟩

/-- Go `url.Parse(rawURL)`: the text is cut at the first `#`; what precedes is parsed,
what follows is the fragment. -/
def url.Parse (p : Platform) (rawURL : String) : Except GoError url.URL :=
  let cut := cutAt '#' rawURL.data
  match url.parse p cut.1 with
  | .error msg => .error (.urlError "parse" ⟨cut.1⟩ msg)
  | .ok u =>
    if cut.2.1 = [] then .ok u
    else
      match p.checkFragment ⟨cut.2.1⟩ with
      | some msg => .error (.urlError "parse" rawURL msg)
      | none => .ok { u with Fragment := ⟨cut.2.1⟩ }

/-- The UTF-8 bytes of a character. -/
def utf8Bytes (c : Char) : List Nat :=
  let n := c.toNat
  if n < 0x80 then [n]
  else if n < 0x800 then [0xC0 + n / 64, 0x80 + n % 64]
  else if n < 0x10000 then [0xE0 + n / 4096, 0x80 + n / 64 % 64, 0x80 + n % 64]
  else [0xF0 + n / 262144, 0x80 + n / 4096 % 64, 0x80 + n / 64 % 64, 0x80 + n % 64]

/-- Continuation byte of UTF-8. -/
def isCont (b : Nat) : Bool :=
  decide (0x80 ≤ b) && decide (b ≤ 0xBF)

/-- The first rune of a byte sequence and the number of bytes it takes, as
`utf8.DecodeRune` reads it: a byte that starts no valid encoding yields U+FFFD
and counts alone.  (A byte that is missing reads as 0, which continues nothing.) -/
def decodeRune (bs : List Nat) : Char × Nat :=
  let b := bs.getD 0 0
  let b1 := bs.getD 1 0
  let b2 := bs.getD 2 0
  let b3 := bs.getD 3 0
  if b < 0x80 then (Char.ofNat b, 1)
  else if 0xC2 ≤ b ∧ b ≤ 0xDF ∧ isCont b1 then
    (Char.ofNat ((b - 0xC0) * 64 + (b1 - 0x80)), 2)
  else if 0xE0 ≤ b ∧ b ≤ 0xEF ∧ isCont b1 ∧ isCont b2
      ∧ (b = 0xE0 → 0xA0 ≤ b1) ∧ (b = 0xED → b1 ≤ 0x9F) then
    (Char.ofNat ((b - 0xE0) * 4096 + (b1 - 0x80) * 64 + (b2 - 0x80)), 3)
  else if 0xF0 ≤ b ∧ b ≤ 0xF4 ∧ isCont b1 ∧ isCont b2 ∧ isCont b3
      ∧ (b = 0xF0 → 0x90 ≤ b1) ∧ (b = 0xF4 → b1 ≤ 0x8F) then
    (Char.ofNat ((b - 0xF0) * 262144 + (b1 - 0x80) * 4096 + (b2 - 0x80) * 64 + (b3 - 0x80)), 4)
  else (Char.ofNat 0xFFFD, 1)

/-- The runes of a byte sequence, as Go's `range` reads them; `fuel` bounds the
number of runes (the number of bytes is enough). -/
def runesOfFuel : Nat → List Nat → List Char
  | 0, _ => []
  | _, [] => []
  | fuel + 1, b :: rest =>
    let r := decodeRune (b :: rest)
    r.1 :: runesOfFuel fuel ((b :: rest).drop r.2)

/-- The runes of a byte sequence. -/
def runesOf (bs : List Nat) : List Char :=
  runesOfFuel bs.length bs

/-- Digit `d < 16` in upper-case hexadecimal (`upperhex[d]`). -/
def upperhex (d : Nat) : Char :=
  if d < 10 then Char.ofNat (48 + d) else Char.ofNat (55 + d)

/-- Go `ishex` and `unhex` together: the value of a hexadecimal digit. -/
def unhex (c : Char) : Option Nat :=
  let n := c.toNat
  if 48 ≤ n ∧ n ≤ 57 then some (n - 48)
  else if 97 ≤ n ∧ n ≤ 102 then some (n - 97 + 10)
  else if 65 ≤ n ∧ n ≤ 70 then some (n - 65 + 10)
  else none

/-- Negation of `shouldEscape(c, encodeQueryComponent)`: letters, digits and `-_.~`. -/
def queryUnreserved (c : Char) : Bool :=
  c.isAlphanum || c = '-' || c = '_' || c = '.' || c = '~'

/-- Go `url.QueryEscape` on one character (all of its UTF-8 bytes). -/
def escapeChar (c : Char) : List Char :=
  if queryUnreserved c then [c]
  else if c = ' ' then ['+']
  else (utf8Bytes c).flatMap fun b => ['%', upperhex (b / 16), upperhex (b % 16)]

/-- Go `url.QueryEscape(s)`. -/
def url.QueryEscape (s : String) : String :=
  ⟨s.data.flatMap escapeChar⟩

/-- Bytes produced by `unescape(s, encodeQueryComponent)`, or the offending text. -/
def unescapeBytes : List Char → Except String (List Nat)
  | [] => .ok []
  | c :: rest =>
    if c = '%' then
      match rest with
      | a :: b :: rest2 =>
        match unhex a, unhex b with
        | some x, some y =>
          match unescapeBytes rest2 with
          | .ok bs => .ok ((x * 16 + y) :: bs)
          | .error e => .error e
        | _, _ => .error ⟨['%', a, b]⟩
      | _ => .error ⟨c :: rest⟩
    else
      match unescapeBytes rest with
      | .ok bs => .ok ((if c = '+' then [32] else utf8Bytes c) ++ bs)
      | .error e => .error e

/-- Go `url.QueryUnescape(s)`.  The bytes the escapes spell are read as text: where
they are UTF-8 the result is what Go returns; where they are not, Go returns the
bytes as they are and the model, whose strings are texts, holds U+FFFD in the
place of each byte that starts no encoding. -/
def url.QueryUnescape (s : List Char) : Except GoError String :=
  match unescapeBytes s with
  | .ok bs => .ok ⟨runesOf bs⟩
  | .error e => .error (.errorString ("invalid URL escape \"" ++ e ++ "\""))

/-- Go `url.Values`, a `map[string][]string`: the keys that have an entry, each once,
with the values of the key in the order they were added. -/
abbrev url.Values := List (String × List String)

/-- Go `v[key]`: the values of `key`, empty when the map has no such key. -/
def url.Values.lookup : url.Values → String → List String
  | [], _ => []
  | (k, vs) :: rest, key => if k = key then vs else url.Values.lookup rest key

/-- Go `v.Has(key)`. -/
def url.Values.Has : url.Values → String → Bool
  | [], _ => false
  | (k, _) :: rest, key => decide (k = key) || url.Values.Has rest key

/-- Go `v.Add(key, value)`: `v[key] = append(v[key], value)`. -/
def url.Values.Add : url.Values → String → String → url.Values
  | [], key, value => [(key, [value])]
  | (k, vs) :: rest, key, value =>
    if k = key then (k, vs ++ [value]) :: rest
    else (k, vs) :: url.Values.Add rest key value

/-- Byte-wise order of strings (`<` of Go). -/
def lessChars : List Char → List Char → Bool
  | _, [] => false
  | [], _ :: _ => true
  | a :: as, b :: bs =>
    if a.toNat < b.toNat then true
    else if b.toNat < a.toNat then false
    else lessChars as bs

/-- Insertion of a key into a sorted list of keys. -/
def insertKey (k : String) : List String → List String
  | [] => [k]
  | x :: xs => if lessChars x.data k.data then x :: insertKey k xs else k :: x :: xs

/-- The keys in increasing order (`slices.Sort`). -/
def sortKeys : List String → List String
  | [] => []
  | k :: ks => insertKey k (sortKeys ks)

/-- The pairs `key=value` written by `Encode`, before escaping: keys in
increasing order, the values of one key in their order. -/
def url.Values.pairs (v : url.Values) : List (String × String) :=
  (sortKeys (v.map Prod.fst)).flatMap fun k => (url.Values.lookup v k).map fun x => (k, x)

/-- Go `v.Encode()`: `key=value` pairs, escaped, joined by `&`, sorted by key. -/
def url.Values.Encode (v : url.Values) : String :=
  strings.Join ((url.Values.pairs v).map fun kv =>
    url.QueryEscape kv.1 ++ "=" ++ url.QueryEscape kv.2) "&"

/-- Splits a query at every `&` (the successive `strings.Cut(query, "&")`). -/
def splitAmp : List Char → List (List Char)
  | [] => []
  | c :: cs =>
    if c = '&' then [] :: splitAmp cs
    else
      match splitAmp cs with
      | [] => [[c]]
      | seg :: segs => (c :: seg) :: segs

/-- One round of the loop of `parseQuery` on the piece `piece` of the query. -/
def parseQueryPiece (m : url.Values) (piece : List Char) : url.Values :=
  if piece.contains ';' then m
  else if piece = [] then m
  else
    let kv := cutAt '=' piece
    match url.QueryUnescape kv.1, url.QueryUnescape kv.2.1 with
    | .ok key, .ok value => url.Values.Add m key value
    | _, _ => m

/-- Go `u.Query()`: `ParseQuery(u.RawQuery)` with its error dropped. -/
def url.URL.Query (u : url.URL) : url.Values :=
  (splitAmp u.RawQuery.data).foldl parseQueryPiece []

/-! ## `net/http` -/

/-- The fields of `http.Request` the client sets. -/
structure http.Request where
  Method : String
  URL : url.URL
  Header : List (String × String)
  Body : Option String
  deriving DecidableEq, Repr

/-- Token characters of `validMethod`. -/
def isTokenChar (c : Char) : Bool :=
  c.isAlphanum || "!#$%&*+-.^_|~".data.contains c || c.toNat = 39 || c.toNat = 96

/-- Go `strings.LastIndex(s, sep)` for a one-byte `sep`, counting from `i`: the
index of the last `sep`, or -1. -/
def lastIndexFrom (sep : Char) : Nat → List Char → Int
  | _, [] => -1
  | i, c :: cs =>
    let r := lastIndexFrom sep (i + 1) cs
    if r = -1 then (if c = sep then (i : Int) else -1) else r

/-- Go `strings.LastIndex(s, sep)` for a one-byte `sep`. -/
def strings.LastIndex (s : List Char) (sep : Char) : Int :=
  lastIndexFrom sep 0 s

/-- Go `strings.TrimSuffix(s, suffix)` for a one-byte `suffix`. -/
def strings.TrimSuffix (s : List Char) (suffix : Char) : List Char :=
  if s.getLast? = some suffix then s.dropLast else s

/-- Go `hasPort(s)` of `net/http`: a colon comes after the last `]`. -/
def hasPort (s : List Char) : Bool :=
  decide (strings.LastIndex s ':' > strings.LastIndex s ']')

/-- Go `removeEmptyPort(host)` of `net/http`: a host that ends in `:` loses it. -/
def removeEmptyPort (host : List Char) : List Char :=
  if hasPort host then strings.TrimSuffix host ':' else host

/-- Where `parse` reads the host in the text between scheme and query.  When that
text starts with `//` (and the scheme is not empty or the text does not start
with `///`), the authority runs up to the next `/`, and the host, with its port,
is what follows the last `@` of the authority.  The result is the text before
the host, the host, and the text after it; `none` when there is no authority. -/
def splitHost (scheme : String) (rest : List Char) :
    Option (List Char × List Char × List Char) :=
  if (scheme ≠ "" ∨ ¬ "///".data.isPrefixOf rest) ∧ "//".data.isPrefixOf rest then
    let tail := rest.drop 2
    let authority := tail.takeWhile fun c => c ≠ '/'
    let path := tail.dropWhile fun c => c ≠ '/'
    let i := (strings.LastIndex authority '@' + 1).toNat
    some ('/' :: '/' :: authority.take i, authority.drop i, path)
  else none

/-- The statement `u.Host = removeEmptyPort(u.Host)` of `http.NewRequest`, on the
text that holds the host.  (The standard library keeps the host with its
escapes resolved; no escape it accepts there stands for `:` or `]`, so the
colon removed is the same.) -/
def url.URL.stripEmptyPort (u : url.URL) : url.URL :=
  match splitHost u.Scheme u.Rest.data with
  | some (before, host, after) => { u with Rest := ⟨before ++ removeEmptyPort host ++ after⟩ }
  | none => u

/-- Go `http.NewRequest(method, url, body)`: the request and a nil error, or a nil
request and the error.  The URL of the request is the one `url.Parse` reads,
an empty port removed from its host. -/
def http.NewRequest (p : Platform) (method : String) (target : String) (body : Option String) :
    Option http.Request × Option GoError :=
  let method := if method = "" then "GET" else method
  if method.data.all isTokenChar then
    match url.Parse p target with
    | .error e => (none, some e)
    | .ok u => (some ⟨method, u.stripEmptyPort, [], body⟩, none)
  else (none, some (.errorString ("net/http: invalid method \"" ++ method ++ "\"")))

/-! ## `encoding/json`: reading a document -/

/-- Skips the white space of JSON: space, tab, carriage return, line feed. -/
def skipSpace : List Char → List Char
  | [] => []
  | c :: cs => if c = ' ' ∨ c = '\t' ∨ c = '\r' ∨ c = '\n' then skipSpace cs else c :: cs

/-- Value of four hexadecimal digits (`getu4`). -/
def hex4 (a b c d : Char) : Option Nat :=
  match unhex a, unhex b, unhex c, unhex d with
  | some w, some x, some y, some z => some (w * 4096 + x * 256 + y * 16 + z)
  | _, _, _, _ => none

/-- The character a one-letter escape stands for. -/
def simpleEscape (e : Char) : Option Char :=
  if e = '"' then some '"'
  else if e = '\\' then some '\\'
  else if e = '/' then some '/'
  else if e = 'b' then some (Char.ofNat 8)
  else if e = 'f' then some (Char.ofNat 12)
  else if e = 'n' then some '\n'
  else if e = 'r' then some '\r'
  else if e = 't' then some '\t'
  else none

/-- Reads a string literal after its opening quote: the code units it denotes (a
character, or the number written by a `\u` escape) and the input after its
closing quote. -/
def parseStringBody : List Char → Option (List Nat × List Char)
  | [] => none
  | c :: rest =>
    if c = '"' then some ([], rest)
    else if c = '\\' then
      match rest with
      | [] => none
      | e :: rest1 =>
        if e = 'u' then
          match rest1 with
          | a :: b :: x :: y :: rest2 =>
            match hex4 a b x y with
            | none => none
            | some n => (parseStringBody rest2).map fun r => (n :: r.1, r.2)
          | _ => none
        else
          match simpleEscape e with
          | none => none
          | some ch => (parseStringBody rest1).map fun r => (ch.toNat :: r.1, r.2)
    else if c.toNat < 0x20 then none
    else (parseStringBody rest).map fun r => (c.toNat :: r.1, r.2)

/-- The rune of one code unit outside a surrogate pair: U+FFFD for a surrogate. -/
def unitRune (u : Nat) : Char :=
  if 0xD800 ≤ u ∧ u < 0xE000 then Char.ofNat 0xFFFD else Char.ofNat u

/-- The runes of a sequence of code units (`unquote`): a high surrogate followed
by a low surrogate is one rune, any other surrogate is U+FFFD.  `pending` is a
high surrogate read and not yet paired. -/
def joinUnits : Option Nat → List Nat → List Char
  | none, [] => []
  | some _, [] => [Char.ofNat 0xFFFD]
  | none, u :: rest =>
    if 0xD800 ≤ u ∧ u < 0xDC00 then joinUnits (some u) rest
    else unitRune u :: joinUnits none rest
  | some h, u :: rest =>
    if 0xDC00 ≤ u ∧ u < 0xE000 then
      Char.ofNat ((h - 0xD800) * 1024 + (u - 0xDC00) + 0x10000) :: joinUnits none rest
    else if 0xD800 ≤ u ∧ u < 0xDC00 then Char.ofNat 0xFFFD :: joinUnits (some u) rest
    else Char.ofNat 0xFFFD :: unitRune u :: joinUnits none rest

/-- Reads a string literal after its opening quote: its text and the input
after its closing quote. -/
def parseString (cs : List Char) : Option (String × List Char) :=
  (parseStringBody cs).map fun r => (⟨joinUnits none r.1⟩, r.2)

/-- One or more decimal digits at the head of the input. -/
def takeDigits (cs : List Char) : Option (List Char × List Char) :=
  let ds := cs.takeWhile Char.isDigit
  if ds = [] then none else some (ds, cs.dropWhile Char.isDigit)

/-- Reads a number literal: `-? (0 | [1-9][0-9]*) (. [0-9]+)? ([eE] [+-]? [0-9]+)?`. -/
def parseNumber (cs : List Char) : Option (List Char × List Char) :=
  let sign : List Char × List Char :=
    match cs with
    | '-' :: r => (['-'], r)
    | _ => ([], cs)
  let intPart : Option (List Char × List Char) :=
    match sign.2 with
    | '0' :: r => some (['0'], r)
    | _ => takeDigits sign.2
  match intPart with
  | none => none
  | some (ip, r1) =>
    let frac : Option (List Char × List Char) :=
      match r1 with
      | '.' :: r => (takeDigits r).map fun d => ('.' :: d.1, d.2)
      | _ => some ([], r1)
    match frac with
    | none => none
    | some (fp, r2) =>
      let expo : Option (List Char × List Char) :=
        match r2 with
        | e :: r =>
          if e = 'e' ∨ e = 'E' then
            match r with
            | s :: r' =>
              if s = '+' ∨ s = '-' then (takeDigits r').map fun d => (e :: s :: d.1, d.2)
              else (takeDigits r).map fun d => (e :: d.1, d.2)
            | [] => none
          else some ([], r2)
        | [] => some ([], r2)
      match expo with
      | none => none
      | some (ep, r3) => some (sign.1 ++ ip ++ fp ++ ep, r3)

mutual
/-- Reads one value, white space before it skipped; `fuel` bounds the number of
nested and successive values (the length of the input is enough). -/
def parseValue : Nat → List Char → Option (JSON × List Char)
  | 0, _ => none
  | fuel + 1, cs =>
    match skipSpace cs with
    | [] => none
    | c :: rest =>
      if c = '{' then
        match skipSpace rest with
        | [] => none
        | c1 :: rest1 =>
          if c1 = '}' then some (.object [], rest1)
          else (parseMembers fuel (c1 :: rest1)).map fun r => (.object r.1, r.2)
      else if c = '[' then
        match skipSpace rest with
        | [] => none
        | c1 :: rest1 =>
          if c1 = ']' then some (.array [], rest1)
          else (parseElems fuel (c1 :: rest1)).map fun r => (.array r.1, r.2)
      else if c = '"' then
        (parseString rest).map fun r => (.string r.1, r.2)
      else if "true".data.isPrefixOf (c :: rest) then some (.bool true, (c :: rest).drop 4)
      else if "false".data.isPrefixOf (c :: rest) then some (.bool false, (c :: rest).drop 5)
      else if "null".data.isPrefixOf (c :: rest) then some (.null, (c :: rest).drop 4)
      else (parseNumber (c :: rest)).map fun r => (.number ⟨r.1⟩, r.2)
/-- Reads the members of an object up to and including its closing brace. -/
def parseMembers : Nat → List Char → Option (List (String × JSON) × List Char)
  | 0, _ => none
  | fuel + 1, cs =>
    match skipSpace cs with
    | [] => none
    | c :: rest =>
      if c = '"' then
        match parseString rest with
        | none => none
        | some (key, rest1) =>
          match skipSpace rest1 with
          | [] => none
          | c2 :: rest2 =>
            if c2 = ':' then
              match parseValue fuel rest2 with
              | none => none
              | some (v, rest3) =>
                match skipSpace rest3 with
                | [] => none
                | c4 :: rest4 =>
                  if c4 = ',' then
                    (parseMembers fuel rest4).map fun r => ((key, v) :: r.1, r.2)
                  else if c4 = '}' then some ([(key, v)], rest4)
                  else none
            else none
      else none
/-- Reads the elements of an array up to and including its closing bracket. -/
def parseElems : Nat → List Char → Option (List JSON × List Char)
  | 0, _ => none
  | fuel + 1, cs =>
    match parseValue fuel cs with
    | none => none
    | some (v, rest) =>
      match skipSpace rest with
      | [] => none
      | c :: rest1 =>
        if c = ',' then (parseElems fuel rest1).map fun r => (v :: r.1, r.2)
        else if c = ']' then some ([v], rest1)
        else none
end

/-- The document a text holds (`checkValid` and the scan of the decoder): one
value, with white space around it and nothing else. -/
def parseJSON (data : String) : Option JSON :=
  match parseValue (data.length + 1) data.data with
  | none => none
  | some (v, rest) => if skipSpace rest = [] then some v else none

/-! ## `encoding/json`: decoding into a Go value -/

/-- The field of `UnmarshalTypeError.Value` for a document. -/
def JSON.kind : JSON → String
  | .null => "null"
  | .bool _ => "bool"
  | .number _ => "number"
  | .string _ => "string"
  | .array _ => "array"
  | .object _ => "object"

/-- Case folding of a key.  On the ASCII names of the client's fields it agrees
with Go's: letters lose their case, U+017F is an `S` and U+212A a `K`. -/
def foldKey (s : String) : List Char :=
  s.data.map fun c =>
    if c.toNat = 0x17F then 'S' else if c.toNat = 0x212A then 'K' else c.toUpper

/-- The field a key of an object is decoded into: the one with that JSON name,
or else the first whose JSON name equals the key up to case. -/
def findField (fs : List (String × String × GoType)) (key : String) :
    Option (String × GoType) :=
  match fs.find? fun f => f.2.1 = key with
  | some f => some (f.1, f.2.2)
  | none =>
    match fs.find? fun f => foldKey f.2.1 = foldKey key with
    | some f => some (f.1, f.2.2)
    | none => none

/-- The 64-bit integer a number literal denotes (`strconv.ParseInt(s, 10, 64)`). -/
def parseInt64 (lit : String) : Option Int :=
  let neg := lit.data.head? = some '-'
  let ds := if neg then lit.data.drop 1 else lit.data
  if ds = [] ∨ ¬ ds.all Char.isDigit then none
  else
    let n : Nat := ds.foldl (fun acc c => acc * 10 + (c.toNat - 48)) 0
    let i : Int := if neg then - (n : Int) else n
    if - (2 : Int) ^ 63 ≤ i ∧ i < (2 : Int) ^ 63 then some i else none

mutual
/-- Decodes a document into the value `cur` of type `t` (`decodeState.value`):
the new value and the errors saved.  `null` leaves a string, a boolean, an
integer and a struct as they are; a document of the wrong kind leaves the value
as it is and saves an error. -/
def decodeValue (p : Platform) : GoType → JSON → GoValue → GoValue × List GoError
  | .struct name fs, j, cur =>
    match j with
    | .object ms => decodeMembers p fs ms cur
    | .null => (cur, [])
    | .bool _ => (cur, [.jsonType "bool" name])
    | .number _ => (cur, [.jsonType "number" name])
    | .string _ => (cur, [.jsonType "string" name])
    | .array _ => (cur, [.jsonType "array" name])
  | .string, j, cur =>
    match j with
    | .string s => (.str s, [])
    | .null => (cur, [])
    | .bool _ => (cur, [.jsonType "bool" "string"])
    | .number _ => (cur, [.jsonType "number" "string"])
    | .array _ => (cur, [.jsonType "array" "string"])
    | .object _ => (cur, [.jsonType "object" "string"])
  | .bool, j, cur =>
    match j with
    | .bool b => (.bool b, [])
    | .null => (cur, [])
    | .number _ => (cur, [.jsonType "number" "bool"])
    | .string _ => (cur, [.jsonType "string" "bool"])
    | .array _ => (cur, [.jsonType "array" "bool"])
    | .object _ => (cur, [.jsonType "object" "bool"])
  | .int, j, cur =>
    match j with
    | .number lit =>
      match parseInt64 lit with
      | some i => (.int i, [])
      | none => (cur, [.jsonType ("number " ++ lit) "int"])
    | .null => (cur, [])
    | .bool _ => (cur, [.jsonType "bool" "int"])
    | .string _ => (cur, [.jsonType "string" "int"])
    | .array _ => (cur, [.jsonType "array" "int"])
    | .object _ => (cur, [.jsonType "object" "int"])
  | .int64, j, cur =>
    match j with
    | .number lit =>
      match parseInt64 lit with
      | some i => (.int i, [])
      | none => (cur, [.jsonType ("number " ++ lit) "int64"])
    | .null => (cur, [])
    | .bool _ => (cur, [.jsonType "bool" "int64"])
    | .string _ => (cur, [.jsonType "string" "int64"])
    | .array _ => (cur, [.jsonType "array" "int64"])
    | .object _ => (cur, [.jsonType "object" "int64"])
  | .any, j, cur => p.decodeOther .any j cur
  | .mapAny, j, cur => p.decodeOther .mapAny j cur
  | .slice t, j, cur => p.decodeOther (.slice t) j cur
/-- Decodes the members of an object, in their order, into the fields of the
struct value `cur` (`decodeState.object`); a key without a field is skipped. -/
def decodeMembers (p : Platform) (fs : List (String × String × GoType)) :
    List (String × JSON) → GoValue → GoValue × List GoError
  | [], cur => (cur, [])
  | (key, v) :: rest, cur =>
    match findField fs key with
    | none => decodeMembers p fs rest cur
    | some (name, t) =>
      let r := decodeValue p t v (cur.field name)
      let r' := decodeMembers p fs rest (cur.setField name r.1)
      (r'.1, r.2 ++ r'.2)
end

/-- Go `json.Unmarshal(data, &r)` for `r` of type `t`: the value of `r` afterwards
and the error.  A text that is no JSON document leaves `r` as it is; otherwise
the error is the first one saved.  (Offset and message of the errors are not
part of the model.) -/
def json.Unmarshal (p : Platform) (t : GoType) (data : String) (r : GoValue) :
    GoValue × Option GoError :=
  match parseJSON data with
  | none => (r, some (.jsonSyntax "invalid JSON"))
  | some doc =>
    let d := decodeValue p t doc r
    (d.1, d.2.head?)

/-! ## `encoding/json`: writing a request body -/

/-- Digit `d < 16` in lower-case hexadecimal. -/
def lowerhex (d : Nat) : Char :=
  if d < 10 then Char.ofNat (48 + d) else Char.ofNat (87 + d)

/-- The text written for one character of a string (`appendString` with HTML
escaping, as `json.Encoder` has it by default).  The string is a text: the
bytes that are not UTF-8, for each of which `appendString` writes `\ufffd`, do
not occur in it. -/
def encodeChar (c : Char) : List Char :=
  let n := c.toNat
  if n < 0x80 then
    if 0x20 ≤ n ∧ c ≠ '"' ∧ c ≠ '\\' ∧ c ≠ '<' ∧ c ≠ '>' ∧ c ≠ '&' then [c]
    else if c = '"' ∨ c = '\\' then ['\\', c]
    else if n = 8 then ['\\', 'b']
    else if n = 12 then ['\\', 'f']
    else if c = '\n' then ['\\', 'n']
    else if c = '\r' then ['\\', 'r']
    else if c = '\t' then ['\\', 't']
    else ['\\', 'u', '0', '0', lowerhex (n / 16), lowerhex (n % 16)]
  else if n = 0x2028 then ['\\', 'u', '2', '0', '2', '8']
  else if n = 0x2029 then ['\\', 'u', '2', '0', '2', '9']
  else [c]

/-- The string literal written for a string. -/
def encodeString (s : String) : List Char :=
  '"' :: (s.data.flatMap encodeChar ++ ['"'])

/-- The text written for a field that is a string or a boolean. -/
def encodeField (v : String ⊕ Bool) : List Char :=
  match v with
  | .inl s => encodeString s
  | .inr b => if b then "true".data else "false".data

/-- The members of an object, separated by commas. -/
def encodeMembers : List (String × (String ⊕ Bool)) → List Char
  | [] => []
  | [(k, v)] => encodeString k ++ ':' :: encodeField v
  | (k, v) :: m :: rest => encodeString k ++ ':' :: encodeField v ++ ',' :: encodeMembers (m :: rest)

/-- Go `json.NewEncoder(w).Encode(d)` for a struct `d` given by the JSON names and
values of its fields: the object, followed by a line feed. -/
def json.Encode (d : List (String × (String ⊕ Bool))) : String :=
  ⟨'{' :: (encodeMembers d ++ ['}', '\n'])⟩

/-! ## `mime/multipart`, `path/filepath` -/

/-- Go `filepath.Base(path)` with `/` as separator. -/
def filepath.Base (path : String) : String :=
  if path = "" then "."
  else
    let stripped := (path.data.reverse.dropWhile fun c => c = '/').reverse
    let last := (stripped.reverse.takeWhile fun c => c ≠ '/').reverse
    if last = [] then "/" else ⟨last⟩

/-- Go `escapeQuotes` of `mime/multipart`. -/
def escapeQuotes (s : String) : String :=
  ⟨s.data.flatMap fun c => if c = '\\' ∨ c = '"' then ['\\', c] else [c]⟩

/-- What a `multipart.Writer` with boundary `b` has written after
`CreateFormFile(fieldname, filename)`, the copy of `content` and `Close`. -/
def multipartBody (b : String) (fieldname filename content : String) : String :=
  "--" ++ b ++ "\r\n"
    ++ "Content-Disposition: form-data; name=\"" ++ escapeQuotes fieldname
    ++ "\"; filename=\"" ++ escapeQuotes filename ++ "\"\r\n"
    ++ "Content-Type: application/octet-stream\r\n\r\n"
    ++ content ++ "\r\n--" ++ b ++ "--\r\n"

/-- Go `writer.FormDataContentType()`, for a boundary without special characters. -/
def formDataContentType (b : String) : String :=
  "multipart/form-data; boundary=" ++ b

/-! ## Runs -/

/-- What an operation does that others can see. -/
inductive Event where
  /-- a request handed to the transport (`c.client.Do(req)`) -/
  | send (req : http.Request)
  /-- a text handed to the JSON decoder (`json.Unmarshal(b, &r)`) -/
  | decode (data : String)
  deriving Repr

/-- How a call ends. -/
inductive Outcome (α : Type) where
  | returned (val : α)
  | panicked (msg : String)
  deriving Repr

/-- A call: its events in order, and how it ended. -/
structure Run (α : Type) where
  trace : List Event
  out : Outcome α
  deriving Repr

/-- A call that returns at once. -/
def Run.ret {α : Type} (a : α) : Run α :=
  ⟨[], .returned a⟩

/-- A call that panics at once. -/
def Run.panic {α : Type} (msg : String) : Run α :=
  ⟨[], .panicked msg⟩

/-- One call after another; a panic ends both. -/
def Run.andThen {α β : Type} (x : Run α) (f : α → Run β) : Run β :=
  match x.out with
  | .returned a => ⟨x.trace ++ (f a).trace, (f a).out⟩
  | .panicked msg => ⟨x.trace, .panicked msg⟩

/-- The message of the panic on the use of a nil pointer. -/
def nilDereference : String :=
  "runtime error: invalid memory address or nil pointer dereference"

/-- The requests of a run, in order. -/
def sent {α : Type} (r : Run α) : List http.Request :=
  r.trace.filterMap fun e =>
    match e with
    | .send req => some req
    | .decode _ => none

/-- The texts a run handed to the JSON decoder, in order. -/
def decoded {α : Type} (r : Run α) : List String :=
  r.trace.filterMap fun e =>
    match e with
    | .send _ => none
    | .decode data => some data

/-! ## The client and the types of `jar.go` -/

/-- The transport of the client, `httpClient`.  Its source (`newHttpClient`, `Do`)
is in neither `jar.go` nor `job.go`, so it is a parameter: `Do` performs one
request and returns the bytes of the response, or an error. -/
structure httpClient where
  Do : http.Request → String × Option GoError

/-- Client reprents flink REST API client. -/
structure Client where
  Addr : String
  client : httpClient

/-- The call `c.client.Do(req)`. -/
def Client.perform (c : Client) (req : http.Request) : Run (String × Option GoError) :=
  ⟨[.send req], .returned (c.client.Do req)⟩

/-- The call `json.Unmarshal(b, &r)` for `r` of type `t`. -/
def unmarshal (p : Platform) (t : GoType) (b : String) (r : GoValue) :
    Run (GoValue × Option GoError) :=
  ⟨[.decode b], .returned (json.Unmarshal p t b r)⟩

/-- The method `func (c *Client) url(path string) string`. -/
def Client.url (c : Client) (path : String) : String :=
  if strings.HasPrefix c.Addr "http" then c.Addr ++ path
  else "http://" ++ c.Addr ++ path

/-- The declaration `type features struct`. -/
def features : GoType :=
  .struct "features" [("WebSubmit", "web-submit", .bool)]

/-- The declaration `type ConfigResp struct`. -/
def ConfigResp : GoType :=
  .struct "ConfigResp" [
    ("RefreshInterval", "refresh-interval", .int64),
    ("TimezoneName", "timezone-name", .string),
    ("TimezoneOffset", "timezone-offset", .int64),
    ("FlinkVersion", "flink-version", .string),
    ("FlinkRevision", "flink-revision", .string),
    ("Features", "features", features)]

/-- The declaration `type UploadResp struct`. -/
def UploadResp : GoType :=
  .struct "UploadResp" [("FileName", "filename", .string), ("Status", "status", .string)]

/-- The declaration `type Entry struct`. -/
def Entry : GoType :=
  .struct "Entry" [("Name", "name", .string), ("Description", "description", .string)]

/-- The declaration `type JarFile struct`. -/
def JarFile : GoType :=
  .struct "JarFile" [
    ("ID", "id", .string),
    ("Name", "name", .string),
    ("Uploaded", "uploaded", .int64),
    ("Entries", "entry", .slice Entry)]

/-- The declaration `type JarsResp struct`. -/
def JarsResp : GoType :=
  .struct "JarsResp" [("Address", "address", .string), ("Files", "files", .slice JarFile)]

/-- The declaration `type Input struct`. -/
def Input : GoType :=
  .struct "Input" [
    ("Num", "num", .int),
    ("ID", "id", .string),
    ("ShipStrategy", "ship_strategy", .string),
    ("Exchange", "exchange", .string)]

/-- The declaration `type Node struct`. -/
def Node : GoType :=
  .struct "Node" [
    ("ID", "id", .string),
    ("Parallelism", "parallelism", .int),
    ("Operator", "operator", .string),
    ("OperatorStrategy", "operator_strategy", .string),
    ("Description", "description", .string),
    ("Inputs", "inputs", .slice Input)]

/-- The declaration `type Plan struct`. -/
def Plan : GoType :=
  .struct "Plan" [("JID", "jid", .string), ("Name", "name", .string), ("Nodes", "nodes", .slice Node)]

/-- The declaration `type PlanResp struct`. -/
def PlanResp : GoType :=
  .struct "PlanResp" [("Plan", "plan", Plan)]

/-- The declaration `type RunResp struct`. -/
def RunResp : GoType :=
  .struct "RunResp" [("JobId", "jobid", .string)]

/-- The declaration `type RunOpts struct`. -/
structure RunOpts where
  JarID : String := ""
  AllowNonRestoredState : Bool := false
  SavepointPath : String := ""
  ProgramArg : List String := []
  EntryClass : String := ""
  Parallelism : Int := 0

/-! ## The types of `job.go` -/

/-- The declaration `type KV struct`. -/
def KV : GoType :=
  .struct "KV" [("Key", "key", .string), ("Value", "value", .string)]

/-- The declaration `type Metric struct`. -/
def Metric : GoType :=
  .struct "Metric" [("ID", "id", .string)]

/-- The declaration `type Job struct`. -/
def Job : GoType :=
  .struct "Job" [("ID", "id", .string), ("Status", "status", .string)]

/-- The declaration `type JobsResp struct`. -/
def JobsResp : GoType :=
  .struct "JobsResp" [("Jobs", "jobs", .slice Job)]

/-- The declaration `type JobMetricsOpts struct`. -/
structure JobMetricsOpts where
  Metrics : List String := []
  Agg : List String := []
  Jobs : List String := []

/-- The declaration `type Status struct`. -/
def Status : GoType :=
  .struct "Status" [
    ("Total", "total", .int),
    ("Created", "created", .int),
    ("Scheduled", "scheduled", .int),
    ("Deploying", "deploying", .int),
    ("Running", "running", .int),
    ("Finished", "finished", .int),
    ("Canceling", "canceling", .int),
    ("Canceled", "canceled", .int),
    ("Failed", "failed", .int),
    ("Reconciling", "reconciling", .int)]

/-- The declaration `type JobOverview struct`. -/
def JobOverview : GoType :=
  .struct "JobOverview" [
    ("ID", "jid", .string),
    ("Name", "name", .string),
    ("State", "state", .string),
    ("Start", "start-time", .int64),
    ("End", "end-time", .int64),
    ("Duration", "duration", .int64),
    ("LastModification", "last-modification", .int64),
    ("Tasks", "tasks", Status)]

/-- The declaration `type OverviewResp struct`. -/
def OverviewResp : GoType :=
  .struct "OverviewResp" [("Jobs", "jobs", .slice JobOverview)]

/-- The declaration `type Timestamps struct`. -/
def Timestamps : GoType :=
  .struct "Timestamps" [
    ("Canceled", "CANCELED", .int64),
    ("Suspended", "SUSPENDED", .int64),
    ("Finished", "FINISHED", .int64),
    ("Canceling", "CANCELLING", .int64),
    ("Running", "RUNNING", .int64),
    ("Restarting", "RESTARTING", .int64),
    ("Reconciling", "RECONCILING", .int64),
    ("Created", "CREATED", .int64),
    ("Failed", "FAILED", .int64),
    ("Failing", "FAILING", .int64)]

/-- The declaration `type Vertice struct`. -/
def Vertice : GoType :=
  .struct "Vertice" [
    ("ID", "id", .string),
    ("Name", "name", .string),
    ("Status", "status", .string),
    ("Parallelism", "parallelism", .int),
    ("Start", "start-time", .int64),
    ("End", "end-time", .int64),
    ("Duration", "duration", .int64),
    ("Tasks", "tasks", Status),
    ("Metrics", "metrics", .mapAny)]

/-- The declaration `type JobResp struct`. -/
def JobResp : GoType :=
  .struct "JobResp" [
    ("ID", "jid", .string),
    ("Name", "name", .string),
    ("IsStoppable", "isStoppable", .bool),
    ("State", "state", .string),
    ("Start", "start-time", .int64),
    ("End", "end-time", .int64),
    ("Duration", "duration", .int64),
    ("Now", "now", .int64),
    ("Timestamps", "timestamps", Timestamps),
    ("Vertices", "vertices", .slice Vertice),
    ("StatusCounts", "status-counts", Status),
    ("Plan", "plan", Plan)]

/-- The declaration `type Counts struct`. -/
def Counts : GoType :=
  .struct "Counts" [
    ("Restored", "restored", .int),
    ("Total", "total", .int),
    ("InProgress", "in_progress", .int),
    ("Completed", "completed", .int),
    ("Failed", "failed", .int)]

/-- The declaration `type statics struct`. -/
def statics : GoType :=
  .struct "statics" [("Min", "min", .int), ("Max", "max", .int), ("Avg", "avg", .int)]

/-- The declaration `type Summary struct`. -/
def Summary : GoType :=
  .struct "Summary" [
    ("StateSize", "state_size", statics),
    ("End2EndDuration", "end_to_end_duration", statics),
    ("AlignmentBuffered", "alignment_buffered", statics)]

/-- The declaration `type TaskCheckpointsStatics struct`. -/
def TaskCheckpointsStatics : GoType :=
  .struct "TaskCheckpointsStatics" [
    ("ID", "id", .string),
    ("Status", "status", .string),
    ("LatestAckTimestamp", "latest_ack_timestamp", .int64),
    ("FailureTimestamp", "failure_timestamp", .int64),
    ("FailureMessage", "failure_message", .string),
    ("StateSize", "state_size", .int64),
    ("End2EndDuration", "end_to_end_duration", .int64),
    ("AlignmentBuffered", "alignment_buffered", .int64),
    ("NumSubtasks", "num_subtasks", .int64),
    ("NumAcknowledgedSubtasks", "num_acknowledged_subtasks", .int64)]

/-- The fields shared by the checkpoint statistics, after `ID`. -/
def checkpointFields : List (String × String × GoType) := [
    ("Status", "status", .string),
    ("IsSavepoint", "is_savepoint", .bool),
    ("TriggerTimestamp", "trigger_timestamp", .int64),
    ("LatestAckTimestamp", "latest_ack_timestamp", .int64),
    ("StateSize", "state_size", .int64),
    ("End2EndDuration", "end_to_end_duration", .int64),
    ("AlignmentBuffered", "alignment_buffered", .int64),
    ("NumSubtasks", "num_subtasks", .int64),
    ("NumAcknowledgedSubtasks", "num_acknowledged_subtasks", .int64),
    ("Tasks", "tasks", TaskCheckpointsStatics)]

/-- The declaration `type CompletedCheckpointsStatics struct`. -/
def CompletedCheckpointsStatics : GoType :=
  .struct "CompletedCheckpointsStatics" ((("ID", "id", .string) :: checkpointFields) ++ [
    ("ExternalPath", "external_path", .string),
    ("Discarded", "discarded", .bool)])

/-- The declaration `type savepointsStatics struct`. -/
def savepointsStatics : GoType :=
  .struct "savepointsStatics" ((("ID", "id", .int) :: checkpointFields) ++ [
    ("ExternalPath", "external_path", .string),
    ("Discarded", "discarded", .bool)])

/-- The declaration `type failedCheckpointsStatics struct`. -/
def failedCheckpointsStatics : GoType :=
  .struct "failedCheckpointsStatics" (("ID", "id", .int64) :: checkpointFields)

/-- The declaration `type restoredCheckpointsStatics struct`. -/
def restoredCheckpointsStatics : GoType :=
  .struct "restoredCheckpointsStatics" [
    ("ID", "id", .int64),
    ("RestoreTimestamp", "restore_timestamp", .int64),
    ("IsSavepoint", "is_savepoint", .bool),
    ("ExternalPath", "external_path", .string)]

/-- The declaration `type Latest struct`. -/
def Latest : GoType :=
  .struct "Latest" [
    ("Completed", "completed", CompletedCheckpointsStatics),
    ("Savepoint", "savepoint", savepointsStatics),
    ("Failed", "failed", failedCheckpointsStatics),
    ("Restored", "restored", restoredCheckpointsStatics)]

/-- The declaration `type checkpointsResp struct`. -/
def checkpointsResp : GoType :=
  .struct "checkpointsResp" [
    ("Counts", "counts", Counts),
    ("Summary", "summary", Summary),
    ("Latest", "latest", Latest),
    ("History", "history", .slice failedCheckpointsStatics)]

/-- The declaration `type SavePointsResp struct`. -/
def SavePointsResp : GoType :=
  .struct "SavePointsResp" [("RequestID", "request-id", .string)]

/-- The constant `SavepointStatusInProgress`. -/
def SavepointStatusInProgress : String := "IN_PROGRESS"

/-- The constant `SavepointStatusInCompleted`. -/
def SavepointStatusInCompleted : String := "COMPLETED"

/-- The declaration `type TrackSavepointRespFailureCause struct`. -/
def TrackSavepointRespFailureCause : GoType :=
  .struct "TrackSavepointRespFailureCause" [
    ("Class", "class", .string),
    ("StackTrace", "stack-trace", .string),
    ("SerializedThrowable", "serialized-throwable", .string)]

/-- The declaration `type TrackSavepointRespOperation struct`. -/
def TrackSavepointRespOperation : GoType :=
  .struct "TrackSavepointRespOperation" [
    ("FailureCause", "failure-cause", TrackSavepointRespFailureCause),
    ("Location", "location", .string)]

/-- The declaration `type TrackSavepointRespStatus struct`; `SavepointStatusId` is a string type. -/
def TrackSavepointRespStatus : GoType :=
  .struct "TrackSavepointRespStatus" [("Id", "id", .string)]

/-- The declaration `type TrackSavepointResp struct`. -/
def TrackSavepointResp : GoType :=
  .struct "TrackSavepointResp" [
    ("Status", "status", TrackSavepointRespStatus),
    ("Operation", "operation", TrackSavepointRespOperation)]

/-- The declaration `type StopJobResp struct`. -/
def StopJobResp : GoType :=
  .struct "StopJobResp" [("RequestID", "request-id", .string)]

/-! ## The operations of `jar.go`

Each operation is written as in the source.  `http.NewRequest` returns a request
and a nil error, or a nil request and an error; the case of a nil request with
a nil error does not occur, and there `Do` would be given a nil pointer. -/

/-- The statements that end most operations:
`b, err := c.client.Do(req)`, `if err != nil { return r, err }`,
`err = json.Unmarshal(b, &r)`, `return r, err`. -/
def Client.exchange (p : Platform) (c : Client) (t : GoType) (r : GoValue)
    (req : http.Request) : Run (GoValue × Option GoError) :=
  (c.perform req).andThen fun resp =>
    match resp.2 with
    | some err => .ret (r, some err)
    | none => (unmarshal p t resp.1 r).andThen fun d => .ret (d.1, d.2)

/-- The statements that end the operations without a response:
`_, err = c.client.Do(req)`, `return err`. -/
def Client.exchangeOnly (c : Client) (req : http.Request) : Run (Option GoError) :=
  (c.perform req).andThen fun resp => .ret resp.2

/-- Shutdown shutdown the flink cluster. -/
def Client.Shutdown (p : Platform) (c : Client) : Run (Option GoError) :=
  match http.NewRequest p "DELETE" (c.url "/cluster") none with
  | (_, some err) => .ret (some err)
  | (none, none) => .panic nilDereference
  | (some req, none) => c.exchangeOnly req

/-- Config returns the configuration of the WebUI. -/
def Client.Config (p : Platform) (c : Client) : Run (GoValue × Option GoError) :=
  let r := ConfigResp.zero
  match http.NewRequest p "GET" (c.url "/config") none with
  | (_, some err) => .ret (r, some err)
  | (none, none) => .panic nilDereference
  | (some req, none) => c.exchange p ConfigResp r req

/-- Upload uploads jar file.  `file.Name()` is the path given to `os.Open`.  The
results of `CreateFormFile` and of `io.Copy` are not looked at: the body holds
what was read of the file. -/
def Client.UploadJar (p : Platform) (c : Client) (fpath : String) :
    Run (GoValue × Option GoError) :=
  let r := UploadResp.zero
  match p.openFile fpath with
  | .error err => .ret (r, some err)
  | .ok file =>
    let body := multipartBody p.boundary "jarfile" (filepath.Base fpath) file.1
    match http.NewRequest p "POST" (c.url "/jars/upload") (some body) with
    | (_, some err) => .ret (r, some err)
    | (none, none) => .panic nilDereference
    | (some req, none) =>
      let req := { req with
        Header := req.Header ++ [("Content-Type", formDataContentType p.boundary)] }
      c.exchange p UploadResp r req

/-- Jars eturns a list of all jars previously uploaded via '/jars/upload'. -/
def Client.Jars (p : Platform) (c : Client) : Run (GoValue × Option GoError) :=
  let r := JarsResp.zero
  match http.NewRequest p "GET" (c.url "/jars") none with
  | (_, some err) => .ret (r, some err)
  | (none, none) => .panic nilDereference
  | (some req, none) => c.exchange p JarsResp r req

/-- DeleteJar deletes a jar file. -/
def Client.DeleteJar (p : Platform) (c : Client) (jarid : String) : Run (Option GoError) :=
  let uri := "/jars/" ++ jarid
  match http.NewRequest p "DELETE" (c.url uri) none with
  | (_, some err) => .ret (some err)
  | (none, none) => .panic nilDereference
  | (some req, none) => c.exchangeOnly req

/-- PlanJar returns the dataflow plan of a job contained in a jar previously
uploaded via '/jars/upload'. -/
def Client.PlanJar (p : Platform) (c : Client) (jarid : String) :
    Run (GoValue × Option GoError) :=
  let r := PlanResp.zero
  let uri := "/jars/" ++ jarid ++ "/plan"
  match http.NewRequest p "GET" (c.url uri) none with
  | (_, some err) => .ret (r, some err)
  | (none, none) => .panic nilDereference
  | (some req, none) => c.exchange p PlanResp r req

/-- The query of `RunJar` after its four conditional additions to `q`. -/
def runQuery (q : url.Values) (opts : RunOpts) : url.Values :=
  let q :=
    if opts.SavepointPath ≠ "" then
      url.Values.Add (url.Values.Add q "savepointPath" opts.SavepointPath)
        "allowNonRestoredState" (strconv.FormatBool opts.AllowNonRestoredState)
    else q
  let q :=
    if opts.ProgramArg.length > 0 then
      url.Values.Add q "programArg" (strings.Join opts.ProgramArg ",")
    else q
  let q :=
    if opts.EntryClass ≠ "" then url.Values.Add q "entry-class" opts.EntryClass
    else q
  if opts.Parallelism > 0 then
    url.Values.Add q "parallelism" (strconv.Itoa opts.Parallelism)
  else q

/-- RunJar submits a job by running a jar previously uploaded via
'/jars/upload'.  The request is used (`req.URL.Query()`) before the error of
`http.NewRequest` is looked at. -/
def Client.RunJar (p : Platform) (c : Client) (opts : RunOpts) :
    Run (GoValue × Option GoError) :=
  let r := RunResp.zero
  let uri := "/jars/" ++ opts.JarID ++ "/run"
  match http.NewRequest p "POST" (c.url uri) none with
  | (none, _) => .panic nilDereference
  | (some req, err) =>
    let q := runQuery req.URL.Query opts
    let req := { req with URL := { req.URL with RawQuery := url.Values.Encode q } }
    match err with
    | some err => .ret (r, some err)
    | none => c.exchange p RunResp r req

/-! ## The operations of `job.go` -/

/-- JobManagerConfig returns the cluster configuration of job manager server. -/
def Client.JobManagerConfig (p : Platform) (c : Client) : Run (GoValue × Option GoError) :=
  let r := (GoType.slice KV).zero
  match http.NewRequest p "GET" (c.url "/jobmanager/config") none with
  | (_, some err) => .ret (r, some err)
  | (none, none) => .panic nilDereference
  | (some req, none) => c.exchange p (.slice KV) r req

/-- JobManagerMetrics provides access to job manager metrics. -/
def Client.JobManagerMetrics (p : Platform) (c : Client) : Run (GoValue × Option GoError) :=
  let r := (GoType.slice Metric).zero
  match http.NewRequest p "GET" (c.url "/jobmanager/metrics") none with
  | (_, some err) => .ret (r, some err)
  | (none, none) => .panic nilDereference
  | (some req, none) => c.exchange p (.slice Metric) r req

/-- Jobs returns an overview over all jobs and their current state. -/
def Client.Jobs (p : Platform) (c : Client) : Run (GoValue × Option GoError) :=
  let r := JobsResp.zero
  match http.NewRequest p "GET" (c.url "/jobs") none with
  | (_, some err) => .ret (r, some err)
  | (none, none) => .panic nilDereference
  | (some req, none) => c.exchange p JobsResp r req

/-- SubmitJob submits a job. -/
def Client.SubmitJob (_c : Client) : Run (Option GoError) :=
  .ret (some (.errorString "not implement"))

/-- The query of `JobMetrics` after its three conditional additions to `q`. -/
def metricsQuery (q : url.Values) (opts : JobMetricsOpts) : url.Values :=
  let q :=
    if opts.Metrics.length > 0 then url.Values.Add q "get" (strings.Join opts.Metrics ",")
    else q
  let q :=
    if opts.Agg.length > 0 then url.Values.Add q "agg" (strings.Join opts.Agg ",")
    else q
  if opts.Jobs.length > 0 then url.Values.Add q "jobs" (strings.Join opts.Jobs ",")
  else q

/-- JobMetrics provides access to aggregated job metrics. -/
def Client.JobMetrics (p : Platform) (c : Client) (opts : JobMetricsOpts) :
    Run (GoValue × Option GoError) :=
  let r := GoType.mapAny.zero
  match http.NewRequest p "GET" (c.url "/jobs/metrics") none with
  | (_, some err) => .ret (r, some err)
  | (none, none) => .panic nilDereference
  | (some req, none) =>
    let q := metricsQuery req.URL.Query opts
    let req := { req with URL := { req.URL with RawQuery := url.Values.Encode q } }
    c.exchange p .mapAny r req

/-- JobsOverview returns an overview over all jobs. -/
def Client.JobsOverview (p : Platform) (c : Client) : Run (GoValue × Option GoError) :=
  let r := OverviewResp.zero
  match http.NewRequest p "GET" (c.url "/jobs/overview") none with
  | (_, some err) => .ret (r, some err)
  | (none, none) => .panic nilDereference
  | (some req, none) => c.exchange p OverviewResp r req

/-- Job returns details of a job. -/
def Client.Job (p : Platform) (c : Client) (jobID : String) : Run (GoValue × Option GoError) :=
  let r := JobResp.zero
  let uri := "/jobs/" ++ jobID
  match http.NewRequest p "GET" (c.url uri) none with
  | (_, some err) => .ret (r, some err)
  | (none, none) => .panic nilDereference
  | (some req, none) => c.exchange p JobResp r req

/-- StopJob terminates a job. -/
def Client.StopJob (p : Platform) (c : Client) (jobID : String) : Run (Option GoError) :=
  let uri := "/jobs/" ++ jobID
  match http.NewRequest p "PATCH" (c.url uri) none with
  | (_, some err) => .ret (some err)
  | (none, none) => .panic nilDereference
  | (some req, none) => c.exchangeOnly req

/-- Checkpoints returns checkpointing statistics for a job. -/
def Client.Checkpoints (p : Platform) (c : Client) (jobID : String) :
    Run (GoValue × Option GoError) :=
  let r := checkpointsResp.zero
  let uri := "/jobs/" ++ jobID ++ "/checkpoints"
  match http.NewRequest p "GET" (c.url uri) none with
  | (_, some err) => .ret (r, some err)
  | (none, none) => .panic nilDereference
  | (some req, none) => c.exchange p checkpointsResp r req

/-- SavePoints triggers a savepoint, and optionally cancels the job afterwards. -/
def Client.SavePoints (p : Platform) (c : Client) (jobID : String) (saveDir : String)
    (cancelJob : Bool) : Run (GoValue × Option GoError) :=
  let r := SavePointsResp.zero
  let data := json.Encode [("target-directory", .inl saveDir), ("cancel-job", .inr cancelJob)]
  let uri := "/jobs/" ++ jobID ++ "/savepoints"
  match http.NewRequest p "POST" (c.url uri) (some data) with
  | (_, some err) => .ret (r, some err)
  | (none, none) => .panic nilDereference
  | (some req, none) => c.exchange p SavePointsResp r req

/-- Check the status of triggered savepoint. -/
def Client.TrackSavepoint (p : Platform) (c : Client) (jobID : String) (triggerId : String) :
    Run (GoValue × Option GoError) :=
  let r := TrackSavepointResp.zero
  let uri := "/jobs/" ++ jobID ++ "/savepoints/" ++ triggerId
  match http.NewRequest p "GET" (c.url uri) none with
  | (_, some err) => .ret (r, some err)
  | (none, none) => .panic nilDereference
  | (some req, none) => c.exchange p TrackSavepointResp r req

/-- StopJob stops a job with a savepoint. -/
def Client.StopJobWithSavepoint (p : Platform) (c : Client) (jobID : String)
    (saveDir : String) (drain : Bool) : Run (GoValue × Option GoError) :=
  let r := StopJobResp.zero
  let data := json.Encode [("targetDirectory", .inl saveDir), ("drain", .inr drain)]
  let uri := "/jobs/" ++ jobID ++ "/stop"
  match http.NewRequest p "POST" (c.url uri) (some data) with
  | (_, some err) => .ret (r, some err)
  | (none, none) => .panic nilDereference
  | (some req, none) => c.exchange p StopJobResp r req

/-! ## Concrete collaborators for the examples -/

/-- A platform whose `net/url` raises no complaint beyond the checks modelled
above, whose file system holds the jar `/opt/jobs/test.jar` and the directory
`/opt/jobs` (it opens, and reading it fails), and whose JSON decoder leaves
slices, maps and interfaces as they are. -/
def plainPlatform : Platform where
  checkRest := fun _ _ => none
  checkFragment := fun _ => none
  openFile := fun path =>
    if path = "/opt/jobs/test.jar" then .ok ("PK-jar-bytes", none)
    else if path = "/opt/jobs" then .ok ("", some (.external "read /opt/jobs: is a directory"))
    else .error (.external ("open " ++ path ++ ": no such file or directory"))
  boundary := "5d0e1f"
  decodeOther := fun _ _ cur => (cur, [])

/-- A transport that answers every request with the text `body`. -/
def replyWith (body : String) : httpClient :=
  ⟨fun _ => (body, none)⟩

/-- A transport that fails every request with the error `e`. -/
def failWith (e : GoError) : httpClient :=
  ⟨fun _ => ("", some e)⟩

/-- A client of the job manager at `localhost:8081` whose transport answers `reply`. -/
def localClient (reply : String) : Client :=
  ⟨"localhost:8081", replyWith reply⟩

/-- The request `http.NewRequest` builds from `method`, the text
`http://localhost:8081` followed by `path` (a path without query or fragment),
and `body`. -/
def localRequest (method path : String) (body : Option String) : http.Request :=
  ⟨method, ⟨"http", "//localhost:8081" ++ path, false, "", ""⟩, [], body⟩

/-! ## Vocabulary of the statements -/

/-- The requests `reqs` are one request: its method is `method`, it has no header,
its body is `body`, and its URL is the one `http.NewRequest` reads from
`c.url(path)`, that is the URL `url.Parse` gives with an empty port removed from
its host; the URL has no query.  (Said of the URL texts that `url.Parse`
accepts.) -/
def BuildsRequest (p : Platform) (c : Client) (reqs : List http.Request)
    (method path : String) (body : Option String) : Prop :=
  ∀ u, url.Parse p (c.url path) = .ok u →
    reqs = [⟨method, u.stripEmptyPort, [], body⟩] ∧ u.RawQuery = "" ∧ u.ForceQuery = false

/-- The request of `req, err := http.NewRequest(...)` when `err` is nil; `none`
when there is an error (or no request). -/
def requestOf (x : Option http.Request × Option GoError) : Option http.Request :=
  match x with
  | (some req, none) => some req
  | _ => none

/-- What the run does with the request `built` it has made ready.  When there is
one, `req`, the run hands `req` to the transport and no other request; and if
the transport answers `req` with an error `e`, the run is that one call
followed by the return of `expected e`: nothing is handed to the JSON decoder.
When there is none, the run hands nothing to the transport. -/
def SurfacesTransportError {α : Type} (c : Client) (run : Run α)
    (built : Option http.Request) (expected : GoError → α) : Prop :=
  match built with
  | some req =>
    sent run = [req] ∧
    ∀ b e, c.client.Do req = (b, some e) →
      run = ⟨[.send req], .returned (expected e)⟩ ∧ decoded run = []
  | none => sent run = []

/-- The document `{"status":{"id":"IN_PROGRESS"}}`. -/
def inProgressDoc : JSON :=
  .object [("status", .object [("id", .string "IN_PROGRESS")])]

/-- The document `{"status":{"id":"COMPLETED"},"operation":{"location":L}}`. -/
def completedDoc (location : String) : JSON :=
  .object [
    ("status", .object [("id", .string "COMPLETED")]),
    ("operation", .object [("location", .string location)])]

/-- The document of a completed status whose operation carries a failure cause:
`{"status":{"id":"COMPLETED"},"operation":{"failure-cause":{"class":C,
"stack-trace":S,"serialized-throwable":T}}}`. -/
def failedDoc (cls stack thrown : String) : JSON :=
  .object [
    ("status", .object [("id", .string "COMPLETED")]),
    ("operation", .object [
      ("failure-cause", .object [
        ("class", .string cls),
        ("stack-trace", .string stack),
        ("serialized-throwable", .string thrown)])])]

/-- The `TrackSavepointResp` with the given `Status.Id`, `Operation.Location` and
fields of `Operation.FailureCause`. -/
def trackResp (id location cls stack thrown : String) : GoValue :=
  .struct [
    ("Status", .struct [("Id", .str id)]),
    ("Operation", .struct [
      ("FailureCause", .struct [
        ("Class", .str cls),
        ("StackTrace", .str stack),
        ("SerializedThrowable", .str thrown)]),
      ("Location", .str location)])]

/-! ## Lemmas on the standard library -/

theorem cutAt_of_not_mem (sep : Char) (l : List Char) (h : sep ∉ l) :
    cutAt sep l = (l, [], false) := by
  induction l with
  | nil => rfl
  | cons c cs ih =>
    have hc : ¬ c = sep := fun e => h (by simp [e])
    have hcs : sep ∉ cs := fun e => h (by simp [e])
    simp [cutAt, hc, ih hcs]

theorem mem_of_mem_cutAt_fst (sep : Char) (l : List Char) (x : Char)
    (h : x ∈ (cutAt sep l).1) : x ∈ l := by
  induction l with
  | nil => simp [cutAt] at h
  | cons c cs ih =>
    by_cases hc : c = sep
    · simp [cutAt, hc] at h
    · simp only [cutAt, hc, if_false, List.mem_cons] at h
      rcases h with h | h
      · simp [h]
      · exact List.mem_cons_of_mem _ (ih h)

theorem mem_of_getSchemeLoop (whole : List Char) (x : Char) :
    ∀ (cs seen scheme rest : List Char),
      getSchemeLoop whole seen cs = .ok (scheme, rest) → x ∈ rest → x ∈ whole ∨ x ∈ cs := by
  intro cs
  induction cs with
  | nil =>
    intro seen scheme rest h hx
    simp only [getSchemeLoop] at h
    cases h
    exact Or.inl hx
  | cons c cs ih =>
    intro seen scheme rest h hx
    simp only [getSchemeLoop] at h
    split at h
    · rcases ih _ _ _ h hx with h' | h'
      · exact Or.inl h'
      · exact Or.inr (List.mem_cons_of_mem _ h')
    · split at h
      · split at h
        · cases h
          exact Or.inl hx
        · rcases ih _ _ _ h hx with h' | h'
          · exact Or.inl h'
          · exact Or.inr (List.mem_cons_of_mem _ h')
      · split at h
        · split at h
          · cases h
          · cases h
            exact Or.inr (List.mem_cons_of_mem _ hx)
        · cases h
          exact Or.inl hx

theorem parse_noQuery (p : Platform) (text : List Char) (u : url.URL)
    (hq : '?' ∉ text) (h : url.parse p text = .ok u) :
    u.RawQuery = "" ∧ u.ForceQuery = false := by
  unfold url.parse at h
  split at h
  · cases h
  · split at h
    · cases h
      exact ⟨rfl, rfl⟩
    · split at h
      · cases h
      · rename_i scheme rest hs
        have hrest : '?' ∉ rest := by
          intro e
          rcases mem_of_getSchemeLoop _ _ _ _ _ _ hs e with h' | h' <;> exact hq h'
        have hlast : ¬ (rest.getLast? = some '?' ∧ rest.count '?' = 1) := by
          rintro ⟨h1, _⟩
          exact hrest (List.mem_of_getLast?_eq_some h1)
        have hsq : splitQuery rest = (rest, false, []) := by
          simp [splitQuery, hlast, cutAt_of_not_mem _ _ hrest]
        simp only [hsq] at h
        split at h
        · cases h
        · cases h
          exact ⟨rfl, rfl⟩

/-- A URL text without `?` parses, if it parses, to a URL without a query. -/
theorem parse_rawQuery_empty (p : Platform) (text : String) (u : url.URL)
    (hq : '?' ∉ text.data) (h : url.Parse p text = .ok u) :
    u.RawQuery = "" ∧ u.ForceQuery = false := by
  have hcut : '?' ∉ (cutAt '#' text.data).1 := fun e => hq (mem_of_mem_cutAt_fst _ _ _ e)
  unfold url.Parse at h
  simp only [] at h
  split at h
  · cases h
  · rename_i u0 hu0
    have h0 := parse_noQuery p _ u0 hcut hu0
    split at h
    · cases h
      exact h0
    · split at h
      · cases h
      · cases h
        exact h0

/-! ## The query codec: what is encoded is read back -/

theorem char_range (c : Char) : c.toNat < 0xD800 ∨ (0xDFFF < c.toNat ∧ c.toNat < 0x110000) := c.valid

set_option maxRecDepth 20000 in
theorem decodeRune_utf8Bytes (c : Char) (rest : List Nat) :
    decodeRune (utf8Bytes c ++ rest) = (c, (utf8Bytes c).length) := by
  have hv := char_range c
  have hc := Char.ofNat_toNat c
  unfold utf8Bytes
  simp only []
  generalize c.toNat = n at hv hc ⊢
  subst hc
  by_cases h1 : n < 0x80
  · simp [h1, decodeRune]
  · by_cases h2 : n < 0x800
    · have a1 : ¬ (0xC0 + n / 64 < 0x80) := by omega
      have a2 : 0xC2 ≤ 0xC0 + n / 64 ∧ 0xC0 + n / 64 ≤ 0xDF := by omega
      have a3 : isCont (0x80 + n % 64) = true := by simp [isCont]; omega
      simp only [if_neg h1, if_pos h2, decodeRune, List.getD_cons_zero, List.getD_cons_succ,
        List.cons_append, List.nil_append, List.length_cons, List.length_nil]
      rw [if_neg a1, if_pos ⟨a2.1, a2.2, a3⟩]
      congr 2; omega
    · by_cases h3 : n < 0x10000
      · have a1 : ¬ (0xE0 + n / 4096 < 0x80) := by omega
        have a2 : ¬ (0xC2 ≤ 0xE0 + n / 4096 ∧ 0xE0 + n / 4096 ≤ 0xDF ∧ isCont (0x80 + n / 64 % 64) = true) := by
          omega
        have a3 : isCont (0x80 + n % 64) = true := by simp [isCont]; omega
        have a4 : isCont (0x80 + n / 64 % 64) = true := by simp [isCont]; omega
        have a5 : 0xE0 ≤ 0xE0 + n / 4096 ∧ 0xE0 + n / 4096 ≤ 0xEF := by omega
        have a6 : (0xE0 + n / 4096 = 0xE0 → 0xA0 ≤ 0x80 + n / 64 % 64) := by omega
        have a7 : (0xE0 + n / 4096 = 0xED → 0x80 + n / 64 % 64 ≤ 0x9F) := by omega
        simp only [if_neg h1, if_neg h2, if_pos h3, decodeRune, List.getD_cons_zero,
          List.getD_cons_succ, List.cons_append, List.nil_append, List.length_cons, List.length_nil]
        rw [if_neg a1, if_neg a2, if_pos ⟨a5.1, a5.2, a4, a3, a6, a7⟩]
        congr 2; omega
      · have a1 : ¬ (0xF0 + n / 262144 < 0x80) := by omega
        have a2 : ¬ (0xC2 ≤ 0xF0 + n / 262144 ∧ 0xF0 + n / 262144 ≤ 0xDF ∧ isCont (0x80 + n / 4096 % 64) = true) := by
          omega
        have a2' : ¬ (0xE0 ≤ 0xF0 + n / 262144 ∧ 0xF0 + n / 262144 ≤ 0xEF ∧ isCont (0x80 + n / 4096 % 64) = true
            ∧ isCont (0x80 + n / 64 % 64) = true ∧ (0xF0 + n / 262144 = 0xE0 → 0xA0 ≤ 0x80 + n / 4096 % 64)
            ∧ (0xF0 + n / 262144 = 0xED → 0x80 + n / 4096 % 64 ≤ 0x9F)) := by
          omega
        have a3 : isCont (0x80 + n % 64) = true := by simp [isCont]; omega
        have a4 : isCont (0x80 + n / 64 % 64) = true := by simp [isCont]; omega
        have a4' : isCont (0x80 + n / 4096 % 64) = true := by simp [isCont]; omega
        have a5 : 0xF0 ≤ 0xF0 + n / 262144 ∧ 0xF0 + n / 262144 ≤ 0xF4 := by omega
        have a6 : (0xF0 + n / 262144 = 0xF0 → 0x90 ≤ 0x80 + n / 4096 % 64) := by omega
        have a7 : (0xF0 + n / 262144 = 0xF4 → 0x80 + n / 4096 % 64 ≤ 0x8F) := by omega
        simp only [if_neg h1, if_neg h2, if_neg h3, decodeRune, List.getD_cons_zero,
          List.getD_cons_succ, List.cons_append, List.nil_append, List.length_cons, List.length_nil]
        rw [if_neg a1, if_neg a2, if_neg a2', if_pos ⟨a5.1, a5.2, a4', a4, a3, a6, a7⟩]
        congr 2; omega

theorem utf8Bytes_pos (c : Char) : 0 < (utf8Bytes c).length := by
  unfold utf8Bytes
  simp only []
  split
  · simp
  · split
    · simp
    · split <;> simp

theorem runesOfFuel_utf8 (s : List Char) :
    ∀ fuel, (s.flatMap utf8Bytes).length ≤ fuel → runesOfFuel fuel (s.flatMap utf8Bytes) = s := by
  induction s with
  | nil => intro fuel _; cases fuel <;> rfl
  | cons c cs ih =>
    intro fuel hf
    have hpos := utf8Bytes_pos c
    simp only [List.flatMap_cons, List.length_append] at hf ⊢
    cases fuel with
    | zero => omega
    | succ f =>
      cases hb : utf8Bytes c with
      | nil => simp [hb] at hpos
      | cons b bs =>
        have hd := decodeRune_utf8Bytes c (cs.flatMap utf8Bytes)
        rw [hb] at hd hf
        simp only [List.cons_append] at hd ⊢
        simp only [runesOfFuel, hd]
        have hdrop : List.drop (b :: bs).length (b :: (bs ++ cs.flatMap utf8Bytes)) = cs.flatMap utf8Bytes := by
          rw [← List.cons_append]
          exact List.drop_left (b :: bs) _
        rw [hdrop, ih f (by simp only [List.length_cons] at hf; omega)]

theorem runesOf_utf8 (s : List Char) : runesOf (s.flatMap utf8Bytes) = s :=
  runesOfFuel_utf8 s _ (Nat.le_refl _)

theorem unhex_upperhex (d : Nat) (h : d < 16) : unhex (upperhex d) = some d := by
  interval_cases d <;> rfl

theorem utf8Bytes_lt (c : Char) : ∀ b ∈ utf8Bytes c, b < 256 := by
  have hv := char_range c
  unfold utf8Bytes
  simp only []
  generalize c.toNat = n at hv ⊢
  intro b hb
  split at hb
  · simp at hb; omega
  · split at hb
    · simp at hb; omega
    · split at hb
      · simp at hb; omega
      · simp at hb; omega

theorem unescapeBytes_hex (a b : Char) (x y : Nat) (rest : List Char)
    (ha : unhex a = some x) (hb : unhex b = some y) :
    unescapeBytes ('%' :: a :: b :: rest) = (unescapeBytes rest).map fun r => (x * 16 + y) :: r := by
  rw [unescapeBytes]
  simp only [if_true, ha, hb]
  cases unescapeBytes rest <;> rfl

theorem unescapeBytes_plain (c : Char) (rest : List Char) (hc : c ≠ '%') :
    unescapeBytes (c :: rest)
      = (unescapeBytes rest).map fun r => (if c = '+' then [32] else utf8Bytes c) ++ r := by
  rw [unescapeBytes.eq_def]
  simp only [if_neg hc]
  cases unescapeBytes rest <;> rfl

theorem unescapeBytes_percent (bs : List Nat) (hbs : ∀ b ∈ bs, b < 256) (rest : List Char) :
    unescapeBytes (bs.flatMap (fun b => ['%', upperhex (b / 16), upperhex (b % 16)]) ++ rest)
      = (unescapeBytes rest).map fun r => bs ++ r := by
  induction bs with
  | nil => simp; cases unescapeBytes rest <;> rfl
  | cons b bs ih =>
    have hb : b < 256 := hbs b (by simp)
    have h1 : unhex (upperhex (b / 16)) = some (b / 16) := unhex_upperhex _ (by omega)
    have h2 : unhex (upperhex (b % 16)) = some (b % 16) := unhex_upperhex _ (by omega)
    have ih' := ih (fun x hx => hbs x (by simp [hx]))
    have e : b / 16 * 16 + b % 16 = b := by omega
    simp only [List.flatMap_cons, List.cons_append, List.nil_append]
    rw [unescapeBytes_hex _ _ _ _ _ h1 h2, ih', e]
    cases unescapeBytes rest <;> rfl

theorem unescapeBytes_escapeChar (c : Char) (rest : List Char) :
    unescapeBytes (escapeChar c ++ rest) = (unescapeBytes rest).map fun r => utf8Bytes c ++ r := by
  unfold escapeChar
  split
  · rename_i hu
    have h1 : c ≠ '%' := by rintro rfl; simp [queryUnreserved] at hu
    have h2 : c ≠ '+' := by rintro rfl; simp [queryUnreserved] at hu
    simp only [List.cons_append, List.nil_append]
    rw [unescapeBytes_plain _ _ h1, if_neg h2]
  · split
    · rename_i hs
      subst hs
      simp only [List.cons_append, List.nil_append]
      rw [unescapeBytes_plain _ _ (by decide)]
      rfl
    · exact unescapeBytes_percent _ (utf8Bytes_lt c) rest

theorem unescapeBytes_escape (s : List Char) :
    unescapeBytes (s.flatMap escapeChar) = .ok (s.flatMap utf8Bytes) := by
  induction s with
  | nil => rfl
  | cons c cs ih =>
    simp only [List.flatMap_cons]
    rw [unescapeBytes_escapeChar, ih]
    rfl

theorem queryUnescape_escape (s : String) :
    url.QueryUnescape (url.QueryEscape s).data = .ok s := by
  simp only [url.QueryUnescape, url.QueryEscape, unescapeBytes_escape, runesOf_utf8]

theorem upperhex_plain (d : Nat) (h : d < 16) :
    upperhex d ≠ '&' ∧ upperhex d ≠ '=' ∧ upperhex d ≠ ';' := by
  interval_cases d <;> decide

theorem escapeChar_plain (c x : Char) (hx : x ∈ escapeChar c) :
    x ≠ '&' ∧ x ≠ '=' ∧ x ≠ ';' := by
  unfold escapeChar at hx
  split at hx
  · rename_i hu
    simp only [List.mem_singleton] at hx
    subst hx
    refine ⟨?_, ?_, ?_⟩ <;> (rintro rfl; simp [queryUnreserved] at hu)
  · split at hx
    · simp only [List.mem_singleton] at hx
      subst hx
      decide
    · simp only [List.mem_flatMap] at hx
      obtain ⟨b, hb, hx⟩ := hx
      have hlt := utf8Bytes_lt c b hb
      simp only [List.mem_cons, List.mem_singleton, List.not_mem_nil, or_false] at hx
      rcases hx with rfl | rfl | rfl
      · decide
      · exact upperhex_plain _ (by omega)
      · exact upperhex_plain _ (by omega)

theorem queryEscape_plain (s : String) (x : Char) (hx : x ∈ (url.QueryEscape s).data) :
    x ≠ '&' ∧ x ≠ '=' ∧ x ≠ ';' := by
  simp only [url.QueryEscape, List.mem_flatMap] at hx
  obtain ⟨c, _, hc⟩ := hx
  exact escapeChar_plain c x hc

theorem cutAt_append (sep : Char) (a t : List Char) (h : sep ∉ a) :
    cutAt sep (a ++ sep :: t) = (a, t, true) := by
  induction a with
  | nil => simp [cutAt]
  | cons c cs ih =>
    have hc : ¬ c = sep := fun e => h (by simp [e])
    have hcs : sep ∉ cs := fun e => h (by simp [e])
    simp [cutAt, hc, ih hcs]

theorem splitAmp_append (a t : List Char) (h : '&' ∉ a) :
    splitAmp (a ++ '&' :: t) = a :: splitAmp t := by
  induction a with
  | nil => simp [splitAmp]
  | cons c cs ih =>
    have hc : ¬ c = '&' := fun e => h (by simp [e])
    have hcs : '&' ∉ cs := fun e => h (by simp [e])
    simp [splitAmp, hc, ih hcs]

theorem splitAmp_single (a : List Char) (ha : a ≠ []) (h : '&' ∉ a) : splitAmp a = [a] := by
  induction a with
  | nil => exact absurd rfl ha
  | cons c cs ih =>
    have hc : ¬ c = '&' := fun e => h (by simp [e])
    have hcs : '&' ∉ cs := fun e => h (by simp [e])
    cases cs with
    | nil => simp [splitAmp, hc]
    | cons d ds =>
      have := ih (by simp) hcs
      simp only [splitAmp, hc, if_false] at this ⊢
      simp only [splitAmp, this]

theorem splitAmp_join (comps : List String)
    (h : ∀ s ∈ comps, s.data ≠ [] ∧ '&' ∉ s.data) :
    splitAmp (strings.Join comps "&").data = comps.map String.data := by
  induction comps with
  | nil => rfl
  | cons a rest ih =>
    cases rest with
    | nil =>
      have := h a (by simp)
      simp [strings.Join, splitAmp_single _ this.1 this.2]
    | cons b rest' =>
      have ha := h a (by simp)
      have ih' := ih (fun s hs => h s (by simp [hs]))
      simp only [strings.Join, String.data_append, List.map_cons]
      rw [List.append_assoc, List.singleton_append, splitAmp_append _ _ ha.2, ih']
      rfl

theorem parseQueryPiece_pair (m : url.Values) (k v : String) :
    parseQueryPiece m (url.QueryEscape k ++ "=" ++ url.QueryEscape v).data = url.Values.Add m k v := by
  have hk : '=' ∉ (url.QueryEscape k).data := fun e => (queryEscape_plain k _ e).2.1 rfl
  have hsemi : ((url.QueryEscape k).data ++ '=' :: (url.QueryEscape v).data).contains ';' = false := by
    rw [List.contains_eq_any_beq, List.any_eq_false]
    intro x hx
    simp only [List.mem_append, List.mem_cons] at hx
    rcases hx with hx | rfl | hx
    · have h := (queryEscape_plain k _ hx).2.2
      simp
      exact fun e => h e.symm
    · decide
    · have h := (queryEscape_plain v _ hx).2.2
      simp
      exact fun e => h e.symm
  have hne : (url.QueryEscape k).data ++ '=' :: (url.QueryEscape v).data ≠ [] := by simp
  have hd : (url.QueryEscape k ++ "=" ++ url.QueryEscape v).data
      = (url.QueryEscape k).data ++ '=' :: (url.QueryEscape v).data := by
    simp only [String.data_append, List.append_assoc]
    rfl
  rw [hd]
  unfold parseQueryPiece
  simp only [hsemi, hne, cutAt_append _ _ _ hk, queryUnescape_escape, if_false]
  rfl

/-- The map built by adding pairs one after the other to `m`. -/
theorem lookup_add (m : url.Values) (k v key : String) :
    url.Values.lookup (url.Values.Add m k v) key
      = if k = key then url.Values.lookup m key ++ [v] else url.Values.lookup m key := by
  induction m with
  | nil =>
    by_cases h : k = key <;> simp [url.Values.Add, url.Values.lookup, h]
  | cons e rest ih =>
    obtain ⟨k', vs⟩ := e
    by_cases h1 : k' = k
    · subst h1
      by_cases h2 : k' = key <;> simp [url.Values.Add, url.Values.lookup, h2]
    · by_cases h2 : k' = key
      · subst h2
        have h3 : ¬ k = k' := fun e => h1 e.symm
        simp [url.Values.Add, url.Values.lookup, h1, h3]
      · simp [url.Values.Add, url.Values.lookup, h1, h2, ih]

theorem has_add (m : url.Values) (k v key : String) :
    url.Values.Has (url.Values.Add m k v) key = (decide (k = key) || url.Values.Has m key) := by
  induction m with
  | nil => simp [url.Values.Add, url.Values.Has]
  | cons e rest ih =>
    obtain ⟨k', vs⟩ := e
    by_cases h1 : k' = k
    · subst h1
      simp [url.Values.Add, url.Values.Has]
    · simp only [url.Values.Add, h1, if_false, url.Values.Has, ih]
      cases decide (k' = key) <;> cases decide (k = key) <;> simp

theorem keys_add (m : url.Values) (k v : String) (x : String) :
    x ∈ (url.Values.Add m k v).map Prod.fst ↔ x = k ∨ x ∈ m.map Prod.fst := by
  induction m with
  | nil => simp [url.Values.Add]
  | cons e rest ih =>
    obtain ⟨k', vs⟩ := e
    by_cases h1 : k' = k
    · subst h1
      simp [url.Values.Add]
    · simp only [url.Values.Add, h1, if_false, List.map_cons, List.mem_cons, ih]
      tauto

theorem nodup_add (m : url.Values) (k v : String) (h : (m.map Prod.fst).Nodup) :
    ((url.Values.Add m k v).map Prod.fst).Nodup := by
  induction m with
  | nil => simp [url.Values.Add]
  | cons e rest ih =>
    obtain ⟨k', vs⟩ := e
    simp only [List.map_cons, List.nodup_cons] at h
    by_cases h1 : k' = k
    · subst h1
      simpa [url.Values.Add] using h
    · simp only [url.Values.Add, h1, if_false, List.map_cons, List.nodup_cons]
      refine ⟨?_, ih h.2⟩
      rw [keys_add]
      rintro (e | e)
      · exact h1 e
      · exact h.1 e

/-- Adding the pairs of a list one after the other. -/
theorem foldl_pieces (ps : List (String × String)) :
    ∀ m : url.Values,
      ((ps.map fun kv => url.QueryEscape kv.1 ++ "=" ++ url.QueryEscape kv.2).map String.data).foldl
          parseQueryPiece m
        = ps.foldl (fun m kv => url.Values.Add m kv.1 kv.2) m := by
  induction ps with
  | nil => intro m; rfl
  | cons kv rest ih =>
    intro m
    simp only [List.map_cons, List.foldl_cons, parseQueryPiece_pair, ih]

theorem lookup_foldl (ps : List (String × String)) (key : String) :
    ∀ m : url.Values,
      url.Values.lookup (ps.foldl (fun m kv => url.Values.Add m kv.1 kv.2) m) key
        = url.Values.lookup m key ++ (ps.filter fun kv => kv.1 = key).map Prod.snd := by
  induction ps with
  | nil => intro m; simp
  | cons kv rest ih =>
    intro m
    simp only [List.foldl_cons, ih, lookup_add]
    by_cases h : kv.1 = key <;> simp [h, List.filter_cons]

theorem insertKey_perm (k : String) (l : List String) : (insertKey k l).Perm (k :: l) := by
  induction l with
  | nil => exact List.Perm.refl _
  | cons x xs ih =>
    simp only [insertKey]
    split
    · exact (List.Perm.cons x ih).trans (List.Perm.swap k x xs)
    · exact List.Perm.refl _

theorem sortKeys_perm (l : List String) : (sortKeys l).Perm l := by
  induction l with
  | nil => exact List.Perm.refl _
  | cons k ks ih => exact (insertKey_perm k _).trans (List.Perm.cons k ih)

theorem lookup_of_not_mem (q : url.Values) (key : String) (h : key ∉ q.map Prod.fst) :
    url.Values.lookup q key = [] := by
  induction q with
  | nil => rfl
  | cons e rest ih =>
    obtain ⟨k, vs⟩ := e
    simp only [List.map_cons, List.mem_cons, not_or] at h
    have h1 : ¬ k = key := fun e => h.1 e.symm
    simp [url.Values.lookup, h1, ih h.2]

theorem filter_pairs (q : url.Values) (key : String) (ks : List String) (hks : ks.Nodup) :
    (((ks.flatMap fun k => (url.Values.lookup q k).map fun x => (k, x)).filter
        fun kv => kv.1 = key).map Prod.snd)
      = if key ∈ ks then url.Values.lookup q key else [] := by
  induction ks with
  | nil => simp
  | cons k rest ih =>
    simp only [List.nodup_cons] at hks
    simp only [List.flatMap_cons, List.filter_append, List.map_append, ih hks.2]
    by_cases h : k = key
    · subst h
      have e : ((url.Values.lookup q k).map fun x => (k, x)).filter (fun kv => kv.1 = k)
          = (url.Values.lookup q k).map fun x => (k, x) := by
        apply List.filter_eq_self.2
        intro a ha
        simp only [List.mem_map] at ha
        obtain ⟨x, _, rfl⟩ := ha
        simp
      simp [e, hks.1, Function.comp_def]
    · have e : ((url.Values.lookup q k).map fun x => (k, x)).filter (fun kv => kv.1 = key) = [] := by
        apply List.filter_eq_nil_iff.2
        intro a ha
        simp only [List.mem_map] at ha
        obtain ⟨x, _, rfl⟩ := ha
        simp [h]
      have h' : ¬ key = k := fun e => h e.symm
      simp [e, h']

/-- The values of a key read back from an encoded query are the values encoded. -/
theorem lookup_query_encode (q : url.Values) (hq : (q.map Prod.fst).Nodup) (u : url.URL)
    (hu : u.RawQuery = url.Values.Encode q) (key : String) :
    url.Values.lookup u.Query key = url.Values.lookup q key := by
  have hcomps : ∀ s ∈ (url.Values.pairs q).map
      (fun kv => url.QueryEscape kv.1 ++ "=" ++ url.QueryEscape kv.2),
      s.data ≠ [] ∧ '&' ∉ s.data := by
    intro s hs
    simp only [List.mem_map] at hs
    obtain ⟨kv, _, rfl⟩ := hs
    have hd : (url.QueryEscape kv.1 ++ "=" ++ url.QueryEscape kv.2).data
        = (url.QueryEscape kv.1).data ++ '=' :: (url.QueryEscape kv.2).data := by
      simp only [String.data_append, List.append_assoc]
      rfl
    rw [hd]
    refine ⟨by simp, ?_⟩
    intro hmem
    simp only [List.mem_append, List.mem_cons] at hmem
    rcases hmem with h | h | h
    · exact (queryEscape_plain _ _ h).1 rfl
    · exact absurd h (by decide)
    · exact (queryEscape_plain _ _ h).1 rfl
  have hperm := sortKeys_perm (q.map Prod.fst)
  unfold url.URL.Query
  rw [hu, url.Values.Encode, splitAmp_join _ hcomps, foldl_pieces, lookup_foldl]
  simp only [url.Values.lookup, List.nil_append]
  unfold url.Values.pairs
  rw [filter_pairs q key _ (hperm.nodup_iff.2 hq)]
  split
  · rfl
  · rename_i hmem
    exact (lookup_of_not_mem q key (fun e => hmem (hperm.mem_iff.2 e))).symm

theorem parseQueryPiece_cases (m : url.Values) (piece : List Char) :
    parseQueryPiece m piece = m ∨ ∃ k v, parseQueryPiece m piece = url.Values.Add m k v := by
  unfold parseQueryPiece
  split
  · exact Or.inl rfl
  · split
    · exact Or.inl rfl
    · simp only []
      cases url.QueryUnescape (cutAt '=' piece).1 with
      | error e => exact Or.inl rfl
      | ok k =>
        cases url.QueryUnescape (cutAt '=' piece).2.1 with
        | error e => exact Or.inl rfl
        | ok v => exact Or.inr ⟨k, v, rfl⟩

/-- A query read from a text has each key once. -/
theorem nodup_query (u : url.URL) : (u.Query.map Prod.fst).Nodup := by
  unfold url.URL.Query
  generalize splitAmp u.RawQuery.data = pieces
  suffices h : ∀ m : url.Values, (m.map Prod.fst).Nodup →
      ((pieces.foldl parseQueryPiece m).map Prod.fst).Nodup from h [] (by simp)
  induction pieces with
  | nil => intro m h; exact h
  | cons piece rest ih =>
    intro m h
    apply ih
    rcases parseQueryPiece_cases m piece with e | ⟨k, v, e⟩
    · rw [e]; exact h
    · rw [e]; exact nodup_add _ _ _ h

/-- In a query read from a text, a key is present exactly when it has a value. -/
theorem has_query_iff (u : url.URL) (key : String) :
    url.Values.Has u.Query key = true ↔ url.Values.lookup u.Query key ≠ [] := by
  unfold url.URL.Query
  generalize splitAmp u.RawQuery.data = pieces
  suffices h : ∀ m : url.Values,
      (url.Values.Has m key = true ↔ url.Values.lookup m key ≠ []) →
      (url.Values.Has (pieces.foldl parseQueryPiece m) key = true
        ↔ url.Values.lookup (pieces.foldl parseQueryPiece m) key ≠ []) from
    h [] (by simp [url.Values.Has, url.Values.lookup])
  induction pieces with
  | nil => intro m h; exact h
  | cons piece rest ih =>
    intro m h
    apply ih
    rcases parseQueryPiece_cases m piece with e | ⟨k, v, e⟩
    · rw [e]; exact h
    · rw [e, has_add, lookup_add]
      by_cases hk : k = key
      · simp [hk]
      · simpa [hk] using h

/-! ## The JSON codec: a request body is read back as its object -/

theorem unhex_lowerhex (d : Nat) (h : d < 16) : unhex (lowerhex d) = some d := by
  interval_cases d <;> rfl

theorem parseStringBody_plain (c : Char) (rest : List Char)
    (h1 : c ≠ '"') (h2 : c ≠ '\\') (h3 : ¬ c.toNat < 0x20) :
    parseStringBody (c :: rest) = (parseStringBody rest).map fun r => (c.toNat :: r.1, r.2) := by
  rw [parseStringBody.eq_def]
  simp only [if_neg h1, if_neg h2, if_neg h3]

theorem parseStringBody_escape (e ch : Char) (rest : List Char)
    (h1 : e ≠ 'u') (h2 : simpleEscape e = some ch) :
    parseStringBody ('\\' :: e :: rest)
      = (parseStringBody rest).map fun r => (ch.toNat :: r.1, r.2) := by
  rw [parseStringBody.eq_def]
  simp only [if_neg h1, h2]
  rfl

theorem parseStringBody_hex (a b x y : Char) (n : Nat) (rest : List Char)
    (h : hex4 a b x y = some n) :
    parseStringBody ('\\' :: 'u' :: a :: b :: x :: y :: rest)
      = (parseStringBody rest).map fun r => (n :: r.1, r.2) := by
  rw [parseStringBody.eq_def]
  simp only [h]
  rfl

theorem char_eq_of_toNat (c : Char) (k : Nat) (h : c.toNat = k) : c = Char.ofNat k := by
  rw [← h, Char.ofNat_toNat]

theorem parseStringBody_encodeChar (c : Char) (rest : List Char) :
    parseStringBody (encodeChar c ++ rest)
      = (parseStringBody rest).map fun r => (c.toNat :: r.1, r.2) := by
  by_cases hq : c = '"'
  · subst hq
    exact parseStringBody_escape '"' '"' rest (by decide) rfl
  by_cases hb : c = '\\'
  · subst hb
    exact parseStringBody_escape '\\' '\\' rest (by decide) rfl
  by_cases h8 : c.toNat = 8
  · have := char_eq_of_toNat c 8 h8
    subst this
    exact parseStringBody_escape 'b' (Char.ofNat 8) rest (by decide) rfl
  by_cases h12 : c.toNat = 12
  · have := char_eq_of_toNat c 12 h12
    subst this
    exact parseStringBody_escape 'f' (Char.ofNat 12) rest (by decide) rfl
  by_cases hn : c = '\n'
  · subst hn
    exact parseStringBody_escape 'n' '\n' rest (by decide) rfl
  by_cases hr : c = '\r'
  · subst hr
    exact parseStringBody_escape 'r' '\r' rest (by decide) rfl
  by_cases ht : c = '\t'
  · subst ht
    exact parseStringBody_escape 't' '\t' rest (by decide) rfl
  have hqb : ¬ (c = '"' ∨ c = '\\') := by rintro (h | h) <;> contradiction
  unfold encodeChar
  simp only []
  by_cases hA : c.toNat < 0x80
  · rw [if_pos hA]
    by_cases hS : 0x20 ≤ c.toNat ∧ c ≠ '"' ∧ c ≠ '\\' ∧ c ≠ '<' ∧ c ≠ '>' ∧ c ≠ '&'
    · rw [if_pos hS]
      exact parseStringBody_plain c rest hS.2.1 hS.2.2.1 (by omega)
    · rw [if_neg hS, if_neg hqb, if_neg h8, if_neg h12, if_neg hn, if_neg hr, if_neg ht]
      have h1 : unhex (lowerhex (c.toNat / 16)) = some (c.toNat / 16) := unhex_lowerhex _ (by omega)
      have h2 : unhex (lowerhex (c.toNat % 16)) = some (c.toNat % 16) := unhex_lowerhex _ (by omega)
      have h0 : unhex '0' = some 0 := rfl
      have hx : hex4 '0' '0' (lowerhex (c.toNat / 16)) (lowerhex (c.toNat % 16)) = some c.toNat := by
        simp only [hex4, h0, h1, h2]
        congr 1
        omega
      exact parseStringBody_hex _ _ _ _ _ rest hx
  · rw [if_neg hA]
    by_cases h28 : c.toNat = 0x2028
    · rw [if_pos h28, h28]
      exact parseStringBody_hex '2' '0' '2' '8' 0x2028 rest rfl
    · rw [if_neg h28]
      by_cases h29 : c.toNat = 0x2029
      · rw [if_pos h29, h29]
        exact parseStringBody_hex '2' '0' '2' '9' 0x2029 rest rfl
      · rw [if_neg h29]
        exact parseStringBody_plain c rest hq hb (by omega)

theorem parseStringBody_encode (s rest : List Char) :
    parseStringBody (s.flatMap encodeChar ++ '"' :: rest) = some (s.map Char.toNat, rest) := by
  induction s with
  | nil =>
    rw [parseStringBody.eq_def]
    simp
  | cons c cs ih =>
    simp only [List.flatMap_cons, List.append_assoc, List.map_cons]
    rw [parseStringBody_encodeChar, ih]
    rfl

theorem joinUnits_chars (s : List Char) : joinUnits none (s.map Char.toNat) = s := by
  induction s with
  | nil => rfl
  | cons c cs ih =>
    have hv : c.toNat < 0xD800 ∨ (0xDFFF < c.toNat ∧ c.toNat < 0x110000) := c.valid
    have h1 : ¬ (0xD800 ≤ c.toNat ∧ c.toNat < 0xDC00) := by omega
    have h2 : ¬ (0xD800 ≤ c.toNat ∧ c.toNat < 0xE000) := by omega
    simp only [List.map_cons, joinUnits, if_neg h1, unitRune, if_neg h2, Char.ofNat_toNat, ih]

/-- A string written by the encoder is read back by the decoder. -/
theorem parseString_encodeString (s : String) (rest : List Char) :
    parseString ((encodeString s).tail ++ rest) = some (s, rest) := by
  simp only [encodeString, List.tail_cons, List.append_assoc, List.singleton_append, parseString,
    parseStringBody_encode, Option.map_some', joinUnits_chars]

theorem encodeString_cons (s : String) (rest : List Char) :
    encodeString s ++ rest = '"' :: ((encodeString s).tail ++ rest) := rfl

/-- The document a field is read back as. -/
theorem parseValue_encodeField (fuel : Nat) (v : String ⊕ Bool) (rest : List Char) :
    parseValue (fuel + 1) (encodeField v ++ rest)
      = some (match v with
          | .inl s => JSON.string s
          | .inr b => JSON.bool b, rest) := by
  cases v with
  | inl s =>
    simp only [encodeField]
    rw [encodeString_cons, parseValue]
    simp [skipSpace, parseString_encodeString]
  | inr b =>
    cases b
    · simp [encodeField, parseValue, skipSpace]
    · simp [encodeField, parseValue, skipSpace]

theorem parseMembers_last (fuel : Nat) (k : String) (v : String ⊕ Bool) (rest : List Char) :
    parseMembers (fuel + 1 + 1) ('"' :: ((encodeString k).tail ++ ':' :: (encodeField v ++ '}' :: rest)))
      = some ([(k, match v with
          | .inl s => JSON.string s
          | .inr b => JSON.bool b)], rest) := by
  rw [parseMembers]
  simp [skipSpace, parseString_encodeString, parseValue_encodeField]

theorem parseMembers_pair (fuel : Nat) (k1 k2 : String) (v1 v2 : String ⊕ Bool) (rest : List Char) :
    parseMembers (fuel + 1 + 1 + 1) ('"' :: ((encodeString k1).tail ++ ':' :: (encodeField v1 ++ ',' ::
        '"' :: ((encodeString k2).tail ++ ':' :: (encodeField v2 ++ '}' :: rest)))))
      = some ([
          (k1, match v1 with
            | .inl s => JSON.string s
            | .inr b => JSON.bool b),
          (k2, match v2 with
            | .inl s => JSON.string s
            | .inr b => JSON.bool b)], rest) := by
  rw [parseMembers]
  simp [skipSpace, parseString_encodeString, parseValue_encodeField, parseMembers_last]

theorem parseJSON_encode (k1 k2 : String) (v1 v2 : String ⊕ Bool) :
    parseJSON (json.Encode [(k1, v1), (k2, v2)])
      = some (.object [
          (k1, match v1 with
            | .inl s => JSON.string s
            | .inr b => JSON.bool b),
          (k2, match v2 with
            | .inl s => JSON.string s
            | .inr b => JSON.bool b)]) := by
  have hlen : 3 ≤ (json.Encode [(k1, v1), (k2, v2)]).length := by
    simp [json.Encode, String.length]
  obtain ⟨k, hk⟩ := Nat.exists_eq_add_of_le hlen
  have hfuel : (json.Encode [(k1, v1), (k2, v2)]).length + 1 = k + 1 + 1 + 1 + 1 := by omega
  unfold parseJSON
  rw [hfuel]
  have hdata : (json.Encode [(k1, v1), (k2, v2)]).data
      = '{' :: '"' :: ((encodeString k1).tail ++ ':' :: (encodeField v1 ++ ',' :: '"' ::
          ((encodeString k2).tail ++ ':' :: (encodeField v2 ++ '}' :: ['\n'])))) := by
    simp [json.Encode, encodeMembers, encodeString]
  rw [hdata, parseValue]
  simp [skipSpace, parseMembers_pair]

/-! ## Lemmas on the client -/

theorem sent_exchange (p : Platform) (c : Client) (t : GoType) (r : GoValue) (req : http.Request) :
    sent (c.exchange p t r req) = [req] := by
  unfold Client.exchange Client.perform Run.andThen
  simp only []
  cases (c.client.Do req).2 <;> rfl

theorem sent_exchangeOnly (c : Client) (req : http.Request) :
    sent (c.exchangeOnly req) = [req] := rfl

theorem lookup_runQuery_parallelism (q : url.Values) (opts : RunOpts) :
    url.Values.lookup (runQuery q opts) "parallelism"
      = url.Values.lookup q "parallelism"
          ++ (if 0 < opts.Parallelism then [strconv.Itoa opts.Parallelism] else []) := by
  unfold runQuery
  simp only []
  split_ifs <;> simp [lookup_add]

theorem RunJar_eq (p : Platform) (c : Client) (opts : RunOpts) (req0 : http.Request)
    (hreq : http.NewRequest p "POST" (c.url ("/jars/" ++ opts.JarID ++ "/run")) none
      = (some req0, none)) :
    c.RunJar p opts = c.exchange p RunResp RunResp.zero
      { req0 with URL := { req0.URL with
          RawQuery := url.Values.Encode (runQuery req0.URL.Query opts) } } := by
  unfold Client.RunJar
  simp only [hreq]

theorem JobMetrics_eq (p : Platform) (c : Client) (opts : JobMetricsOpts) (req0 : http.Request)
    (hreq : http.NewRequest p "GET" (c.url "/jobs/metrics") none = (some req0, none)) :
    c.JobMetrics p opts = c.exchange p .mapAny GoType.mapAny.zero
      { req0 with URL := { req0.URL with
          RawQuery := url.Values.Encode (metricsQuery req0.URL.Query opts) } } := by
  unfold Client.JobMetrics
  simp only [hreq]

theorem nodup_runQuery (q : url.Values) (opts : RunOpts) (h : (q.map Prod.fst).Nodup) :
    ((runQuery q opts).map Prod.fst).Nodup := by
  unfold runQuery
  simp only []
  split_ifs <;> first | exact h | ((repeat' apply nodup_add); exact h)

theorem nodup_metricsQuery (q : url.Values) (opts : JobMetricsOpts) (h : (q.map Prod.fst).Nodup) :
    ((metricsQuery q opts).map Prod.fst).Nodup := by
  unfold metricsQuery
  simp only []
  split_ifs <;> first | exact h | ((repeat' apply nodup_add); exact h)

theorem lookup_runQuery_savepointPath (q : url.Values) (opts : RunOpts) :
    url.Values.lookup (runQuery q opts) "savepointPath"
      = url.Values.lookup q "savepointPath"
          ++ (if opts.SavepointPath ≠ "" then [opts.SavepointPath] else []) := by
  unfold runQuery
  simp only []
  split_ifs <;> simp [lookup_add]

theorem lookup_runQuery_allow (q : url.Values) (opts : RunOpts) :
    url.Values.lookup (runQuery q opts) "allowNonRestoredState"
      = url.Values.lookup q "allowNonRestoredState"
          ++ (if opts.SavepointPath ≠ "" then [strconv.FormatBool opts.AllowNonRestoredState]
              else []) := by
  unfold runQuery
  simp only []
  split_ifs <;> simp [lookup_add]

theorem lookup_runQuery_programArg (q : url.Values) (opts : RunOpts) :
    url.Values.lookup (runQuery q opts) "programArg"
      = url.Values.lookup q "programArg"
          ++ (if opts.ProgramArg ≠ [] then [strings.Join opts.ProgramArg ","] else []) := by
  unfold runQuery
  simp only []
  split_ifs <;> simp_all [lookup_add]

theorem lookup_metricsQuery_get (q : url.Values) (opts : JobMetricsOpts) :
    url.Values.lookup (metricsQuery q opts) "get"
      = url.Values.lookup q "get"
          ++ (if opts.Metrics ≠ [] then [strings.Join opts.Metrics ","] else []) := by
  unfold metricsQuery
  simp only []
  split_ifs <;> simp_all [lookup_add]

theorem lookup_metricsQuery_agg (q : url.Values) (opts : JobMetricsOpts) :
    url.Values.lookup (metricsQuery q opts) "agg"
      = url.Values.lookup q "agg"
          ++ (if opts.Agg ≠ [] then [strings.Join opts.Agg ","] else []) := by
  unfold metricsQuery
  simp only []
  split_ifs <;> simp_all [lookup_add]

theorem lookup_metricsQuery_jobs (q : url.Values) (opts : JobMetricsOpts) :
    url.Values.lookup (metricsQuery q opts) "jobs"
      = url.Values.lookup q "jobs"
          ++ (if opts.Jobs ≠ [] then [strings.Join opts.Jobs ","] else []) := by
  unfold metricsQuery
  simp only []
  split_ifs <;> simp_all [lookup_add]

/-- A key absent from a query read from a text has no value there. -/
theorem lookup_of_has_false (u : url.URL) (key : String)
    (h : url.Values.Has u.Query key = false) : url.Values.lookup u.Query key = [] := by
  by_contra hne
  have := (has_query_iff u key).2 hne
  rw [h] at this
  cases this

/-- Go `strings.Join` is the interposition of the separator between the elements. -/
theorem join_eq_intercalate (xs : List String) (sep : String) :
    strings.Join xs sep = sep.intercalate xs := by
  have hgo : ∀ (ys : List String) (acc : String),
      String.intercalate.go acc sep ys
        = match ys with
          | [] => acc
          | y :: ys' => acc ++ sep ++ strings.Join (y :: ys') sep := by
    intro ys
    induction ys with
    | nil => intro acc; rfl
    | cons y ys' ih =>
      intro acc
      rw [String.intercalate.go, ih]
      cases ys' with
      | nil => rfl
      | cons z zs => simp [strings.Join, String.append_assoc]
  cases xs with
  | nil => rfl
  | cons a rest =>
    rw [String.intercalate, hgo]
    cases rest <;> rfl

/-- What RunJar sends, and how its query reads back. -/
theorem RunJar_query (p : Platform) (c : Client) (opts : RunOpts) (req0 : http.Request)
    (hreq : http.NewRequest p "POST" (c.url ("/jars/" ++ opts.JarID ++ "/run")) none
      = (some req0, none)) :
    ∃ req, sent (c.RunJar p opts) = [req] ∧
      req.URL.RawQuery = url.Values.Encode (runQuery req0.URL.Query opts) ∧
      (∀ key, url.Values.lookup req.URL.Query key
        = url.Values.lookup (runQuery req0.URL.Query opts) key) := by
  refine ⟨_, by rw [RunJar_eq p c opts req0 hreq, sent_exchange], rfl, ?_⟩
  intro key
  exact lookup_query_encode _ (nodup_runQuery _ _ (nodup_query _)) _ rfl key

/-- What JobMetrics sends, and how its query reads back. -/
theorem JobMetrics_query (p : Platform) (c : Client) (opts : JobMetricsOpts)
    (req0 : http.Request)
    (hreq : http.NewRequest p "GET" (c.url "/jobs/metrics") none = (some req0, none)) :
    ∃ req, sent (c.JobMetrics p opts) = [req] ∧
      req.URL.RawQuery = url.Values.Encode (metricsQuery req0.URL.Query opts) ∧
      (∀ key, url.Values.lookup req.URL.Query key
        = url.Values.lookup (metricsQuery req0.URL.Query opts) key) := by
  refine ⟨_, by rw [JobMetrics_eq p c opts req0 hreq, sent_exchange], rfl, ?_⟩
  intro key
  exact lookup_query_encode _ (nodup_metricsQuery _ _ (nodup_query _)) _ rfl key

/-! ## C1: `parallelism` -/

/-- C1, as the code has it: when RunJar builds its request and the URL made of the
address and the jar id carries no `parallelism` parameter of its own, the query
of the request sent contains the key `parallelism` exactly when
`opts.Parallelism > 0`, and then with the single value `strconv.Itoa` gives. -/
theorem RunJar_parallelism (p : Platform) (c : Client) (opts : RunOpts) (req0 : http.Request)
    (hreq : http.NewRequest p "POST" (c.url ("/jars/" ++ opts.JarID ++ "/run")) none
      = (some req0, none))
    (hown : url.Values.Has req0.URL.Query "parallelism" = false) :
    ∃ req, sent (c.RunJar p opts) = [req] ∧
      (url.Values.Has req.URL.Query "parallelism" = true ↔ 0 < opts.Parallelism) ∧
      (0 < opts.Parallelism →
        url.Values.lookup req.URL.Query "parallelism" = [strconv.Itoa opts.Parallelism]) := by
  obtain ⟨req, hsent, _, hlook⟩ := RunJar_query p c opts req0 hreq
  have h0 := lookup_of_has_false _ _ hown
  have hl : url.Values.lookup req.URL.Query "parallelism"
      = if 0 < opts.Parallelism then [strconv.Itoa opts.Parallelism] else [] := by
    rw [hlook, lookup_runQuery_parallelism, h0, List.nil_append]
  refine ⟨req, hsent, ?_, ?_⟩
  · rw [has_query_iff, hl]
    by_cases h : 0 < opts.Parallelism <;> simp [h]
  · intro h
    rw [hl, if_pos h]

/-- C1 at `Parallelism = 4`: the query is `parallelism=4`. -/
theorem RunJar_parallelism_witness :
    http.NewRequest plainPlatform "POST"
        ((localClient "\x7b\x7d").url ("/jars/" ++ "job.jar" ++ "/run")) none
      = (some (localRequest "POST" "/jars/job.jar/run" none), none)
    ∧ url.Values.Has (localRequest "POST" "/jars/job.jar/run" none).URL.Query "parallelism" = false
    ∧ (∃ req, sent ((localClient "\x7b\x7d").RunJar plainPlatform
          { JarID := "job.jar", Parallelism := 4 }) = [req] ∧
        (url.Values.Has req.URL.Query "parallelism" = true ↔ 0 < (4 : Int)) ∧
        (0 < (4 : Int) → url.Values.lookup req.URL.Query "parallelism" = [strconv.Itoa 4]))
    ∧ strconv.Itoa 4 = "4"
    ∧ (sent ((localClient "\x7b\x7d").RunJar plainPlatform
          { JarID := "job.jar", Parallelism := 4 })).map (fun req => req.URL.RawQuery)
      = ["parallelism=4"] :=
  ⟨rfl, rfl, RunJar_parallelism plainPlatform (localClient "\x7b\x7d")
    { JarID := "job.jar", Parallelism := 4 } (localRequest "POST" "/jars/job.jar/run" none) rfl rfl,
    rfl, rfl⟩

/-- C1 fails as stated: with the jar id `job.jar?parallelism=7` and `Parallelism = 0`
the request goes out with the query `parallelism=7%2Frun`. -/
theorem RunJar_parallelism_from_jar_id :
    sent ((localClient "\x7b\x7d").RunJar plainPlatform { JarID := "job.jar?parallelism=7", Parallelism := 0 })
      = [⟨"POST", ⟨"http", "//localhost:8081/jars/job.jar", false, "parallelism=7%2Frun", ""⟩,
          [], none⟩]
    ∧ url.Values.Has (⟨"http", "//localhost:8081/jars/job.jar", false, "parallelism=7%2Frun", ""⟩ :
        url.URL).Query "parallelism" = true
    ∧ ¬ (0 < (0 : Int)) :=
  ⟨rfl, rfl, by decide⟩

/-! ## C2: `savepointPath` and `allowNonRestoredState` -/

/-- C2, as the code has it: when RunJar builds its request and the URL made of the
address and the jar id carries neither `savepointPath` nor
`allowNonRestoredState` of its own, the query of the request sent contains
`allowNonRestoredState` exactly when it contains `savepointPath`, which is
exactly when `opts.SavepointPath` is not empty; and then `savepointPath` has the
single value `opts.SavepointPath` and `allowNonRestoredState` the single value
`true` or `false`, as `opts.AllowNonRestoredState` is. -/
theorem RunJar_savepoint (p : Platform) (c : Client) (opts : RunOpts) (req0 : http.Request)
    (hreq : http.NewRequest p "POST" (c.url ("/jars/" ++ opts.JarID ++ "/run")) none
      = (some req0, none))
    (hpath : url.Values.Has req0.URL.Query "savepointPath" = false)
    (hallow : url.Values.Has req0.URL.Query "allowNonRestoredState" = false) :
    ∃ req, sent (c.RunJar p opts) = [req] ∧
      (url.Values.Has req.URL.Query "allowNonRestoredState" = true
        ↔ url.Values.Has req.URL.Query "savepointPath" = true) ∧
      (url.Values.Has req.URL.Query "savepointPath" = true ↔ opts.SavepointPath ≠ "") ∧
      (opts.SavepointPath ≠ "" →
        url.Values.lookup req.URL.Query "savepointPath" = [opts.SavepointPath] ∧
        url.Values.lookup req.URL.Query "allowNonRestoredState"
          = [if opts.AllowNonRestoredState then "true" else "false"]) := by
  obtain ⟨req, hsent, _, hlook⟩ := RunJar_query p c opts req0 hreq
  have hp : url.Values.lookup req.URL.Query "savepointPath"
      = if opts.SavepointPath ≠ "" then [opts.SavepointPath] else [] := by
    rw [hlook, lookup_runQuery_savepointPath, lookup_of_has_false _ _ hpath, List.nil_append]
  have ha : url.Values.lookup req.URL.Query "allowNonRestoredState"
      = if opts.SavepointPath ≠ "" then [strconv.FormatBool opts.AllowNonRestoredState]
        else [] := by
    rw [hlook, lookup_runQuery_allow, lookup_of_has_false _ _ hallow, List.nil_append]
  refine ⟨req, hsent, ?_, ?_, ?_⟩
  · rw [has_query_iff, has_query_iff, hp, ha]
    by_cases h : opts.SavepointPath = "" <;> simp [h]
  · rw [has_query_iff, hp]
    by_cases h : opts.SavepointPath = "" <;> simp [h]
  · intro h
    rw [hp, ha, if_pos h, if_pos h]
    exact ⟨rfl, rfl⟩

/-- C2 at the savepoint path `/sp/1`: the query is
`allowNonRestoredState=true&savepointPath=%2Fsp%2F1`. -/
theorem RunJar_savepoint_witness :
    http.NewRequest plainPlatform "POST"
        ((localClient "\x7b\x7d").url ("/jars/" ++ "job.jar" ++ "/run")) none
      = (some (localRequest "POST" "/jars/job.jar/run" none), none)
    ∧ (∃ req, sent ((localClient "\x7b\x7d").RunJar plainPlatform
          { JarID := "job.jar", SavepointPath := "/sp/1", AllowNonRestoredState := true })
          = [req] ∧
        (url.Values.Has req.URL.Query "allowNonRestoredState" = true
          ↔ url.Values.Has req.URL.Query "savepointPath" = true) ∧
        (url.Values.Has req.URL.Query "savepointPath" = true ↔ ("/sp/1" : String) ≠ "") ∧
        (("/sp/1" : String) ≠ "" →
          url.Values.lookup req.URL.Query "savepointPath" = ["/sp/1"] ∧
          url.Values.lookup req.URL.Query "allowNonRestoredState"
            = [if true then "true" else "false"]))
    ∧ (sent ((localClient "\x7b\x7d").RunJar plainPlatform
          { JarID := "job.jar", SavepointPath := "/sp/1", AllowNonRestoredState := true })).map
        (fun req => req.URL.RawQuery)
      = ["allowNonRestoredState=true&savepointPath=%2Fsp%2F1"] :=
  ⟨rfl, RunJar_savepoint plainPlatform (localClient "\x7b\x7d")
    { JarID := "job.jar", SavepointPath := "/sp/1", AllowNonRestoredState := true }
    (localRequest "POST" "/jars/job.jar/run" none) rfl rfl rfl, rfl⟩

/-- C2 fails as stated: with the jar id `job.jar?allowNonRestoredState=true` and no
savepoint path, the request goes out with `allowNonRestoredState` and without
`savepointPath`. -/
theorem RunJar_allow_from_jar_id :
    sent ((localClient "\x7b\x7d").RunJar plainPlatform
        { JarID := "job.jar?allowNonRestoredState=true", SavepointPath := "" })
      = [⟨"POST", ⟨"http", "//localhost:8081/jars/job.jar", false,
          "allowNonRestoredState=true%2Frun", ""⟩, [], none⟩]
    ∧ url.Values.Has (⟨"http", "//localhost:8081/jars/job.jar", false,
        "allowNonRestoredState=true%2Frun", ""⟩ : url.URL).Query "allowNonRestoredState" = true
    ∧ url.Values.Has (⟨"http", "//localhost:8081/jars/job.jar", false,
        "allowNonRestoredState=true%2Frun", ""⟩ : url.URL).Query "savepointPath" = false :=
  ⟨rfl, rfl, rfl⟩

/-! ## C3: the parameters that are lists -/

/-- C3, as the code has it: when the request is built, each of `programArg`
(RunJar), `get`, `agg` and `jobs` (JobMetrics) of which the URL made of the
address (and the jar id) carries no parameter of its own is absent from the
query of the request sent when its list is empty, and otherwise has one value,
the elements of the list with `,` between them, in order.  Each key depends on
that key alone: what the URL carries under another key does not matter. -/
theorem list_parameters (p : Platform) (c : Client) :
    (∀ (opts : RunOpts) (req0 : http.Request),
      http.NewRequest p "POST" (c.url ("/jars/" ++ opts.JarID ++ "/run")) none
        = (some req0, none) →
      url.Values.Has req0.URL.Query "programArg" = false →
      ∃ req, sent (c.RunJar p opts) = [req] ∧
        (opts.ProgramArg = [] → url.Values.Has req.URL.Query "programArg" = false) ∧
        (opts.ProgramArg ≠ [] →
          url.Values.lookup req.URL.Query "programArg" = [",".intercalate opts.ProgramArg]))
    ∧ (∀ (opts : JobMetricsOpts) (req0 : http.Request),
      http.NewRequest p "GET" (c.url "/jobs/metrics") none = (some req0, none) →
      ∃ req, sent (c.JobMetrics p opts) = [req] ∧
        (url.Values.Has req0.URL.Query "get" = false →
          (opts.Metrics = [] → url.Values.Has req.URL.Query "get" = false) ∧
          (opts.Metrics ≠ [] →
            url.Values.lookup req.URL.Query "get" = [",".intercalate opts.Metrics])) ∧
        (url.Values.Has req0.URL.Query "agg" = false →
          (opts.Agg = [] → url.Values.Has req.URL.Query "agg" = false) ∧
          (opts.Agg ≠ [] →
            url.Values.lookup req.URL.Query "agg" = [",".intercalate opts.Agg])) ∧
        (url.Values.Has req0.URL.Query "jobs" = false →
          (opts.Jobs = [] → url.Values.Has req.URL.Query "jobs" = false) ∧
          (opts.Jobs ≠ [] →
            url.Values.lookup req.URL.Query "jobs" = [",".intercalate opts.Jobs]))) := by
  have absent : ∀ (u : url.URL) (key : String), url.Values.lookup u.Query key = [] →
      url.Values.Has u.Query key = false := by
    intro u key h
    cases hh : url.Values.Has u.Query key with
    | false => rfl
    | true => exact absurd h ((has_query_iff u key).1 hh)
  constructor
  · intro opts req0 hreq hown
    obtain ⟨req, hsent, _, hlook⟩ := RunJar_query p c opts req0 hreq
    have hl := hlook "programArg"
    rw [lookup_runQuery_programArg, lookup_of_has_false _ _ hown, List.nil_append,
      join_eq_intercalate] at hl
    refine ⟨req, hsent, ?_, ?_⟩
    · intro h
      exact absent _ _ (by rw [hl, if_neg (by simp [h])])
    · intro h
      rw [hl, if_pos h]
  · intro opts req0 hreq
    obtain ⟨req, hsent, _, hlook⟩ := JobMetrics_query p c opts req0 hreq
    refine ⟨req, hsent, ?_, ?_, ?_⟩
    · intro hget
      have h1 := hlook "get"
      rw [lookup_metricsQuery_get, lookup_of_has_false _ _ hget, List.nil_append,
        join_eq_intercalate] at h1
      refine ⟨?_, ?_⟩
      · intro h
        exact absent _ _ (by rw [h1, if_neg (by simp [h])])
      · intro h
        rw [h1, if_pos h]
    · intro hagg
      have h2 := hlook "agg"
      rw [lookup_metricsQuery_agg, lookup_of_has_false _ _ hagg, List.nil_append,
        join_eq_intercalate] at h2
      refine ⟨?_, ?_⟩
      · intro h
        exact absent _ _ (by rw [h2, if_neg (by simp [h])])
      · intro h
        rw [h2, if_pos h]
    · intro hjobs
      have h3 := hlook "jobs"
      rw [lookup_metricsQuery_jobs, lookup_of_has_false _ _ hjobs, List.nil_append,
        join_eq_intercalate] at h3
      refine ⟨?_, ?_⟩
      · intro h
        exact absent _ _ (by rw [h3, if_neg (by simp [h])])
      · intro h
        rw [h3, if_pos h]

/-- C3 on the arguments `["--in", "a b", "x"]` and the metrics `["m1", "m2"]`: the
queries are `programArg=--in%2Ca+b%2Cx` and `get=m1%2Cm2`.  At the address
`localhost:8081?agg=z`, whose URL carries `agg` and neither `get` nor `jobs`, the
metric `m1` goes out as the one value of `get`, and `jobs` is absent. -/
theorem list_parameters_witness :
    (∃ req, sent ((localClient "\x7b\x7d").RunJar plainPlatform
          { JarID := "job.jar", ProgramArg := ["--in", "a b", "x"] }) = [req] ∧
        req.URL.RawQuery = "programArg=--in%2Ca+b%2Cx" ∧
        url.Values.lookup req.URL.Query "programArg" = ["--in,a b,x"])
    ∧ (∃ req, sent ((localClient "\x7b\x7d").JobMetrics plainPlatform { Metrics := ["m1", "m2"] })
          = [req] ∧
        req.URL.RawQuery = "get=m1%2Cm2" ∧
        url.Values.lookup req.URL.Query "get" = ["m1,m2"] ∧
        url.Values.Has req.URL.Query "agg" = false ∧
        url.Values.Has req.URL.Query "jobs" = false)
    ∧ (∃ req, sent ((⟨"localhost:8081?agg=z", replyWith "\x7b\x7d"⟩ : Client).JobMetrics
          plainPlatform { Metrics := ["m1"] }) = [req] ∧
        req.URL.RawQuery = "agg=z%2Fjobs%2Fmetrics&get=m1" ∧
        url.Values.lookup req.URL.Query "get" = ["m1"] ∧
        url.Values.Has req.URL.Query "jobs" = false) := by
  have h := list_parameters plainPlatform (localClient "\x7b\x7d")
  have h' := list_parameters plainPlatform ⟨"localhost:8081?agg=z", replyWith "\x7b\x7d"⟩
  obtain ⟨r1, s1, _, v1⟩ := h.1 { JarID := "job.jar", ProgramArg := ["--in", "a b", "x"] }
    (localRequest "POST" "/jars/job.jar/run" none) rfl rfl
  obtain ⟨r2, s2, g2, a2, j2⟩ := h.2 { Metrics := ["m1", "m2"] }
    (localRequest "GET" "/jobs/metrics" none) rfl
  obtain ⟨r3, s3, g3, _, j3⟩ := h'.2 { Metrics := ["m1"] }
    ⟨"GET", ⟨"http", "//localhost:8081", false, "agg=z/jobs/metrics", ""⟩, [], none⟩ rfl
  refine ⟨⟨r1, s1, ?_, v1 (by simp)⟩,
    ⟨r2, s2, ?_, (g2 rfl).2 (by simp), (a2 rfl).1 rfl, (j2 rfl).1 rfl⟩,
    ⟨r3, s3, ?_, (g3 rfl).2 (by simp), (j3 rfl).1 rfl⟩⟩
  · have e : sent ((localClient "\x7b\x7d").RunJar plainPlatform
        { JarID := "job.jar", ProgramArg := ["--in", "a b", "x"] })
        = [⟨"POST", ⟨"http", "//localhost:8081/jars/job.jar/run", false,
            "programArg=--in%2Ca+b%2Cx", ""⟩, [], none⟩] := rfl
    rw [e] at s1
    cases s1
    rfl
  · have e : sent ((localClient "\x7b\x7d").JobMetrics plainPlatform { Metrics := ["m1", "m2"] })
        = [⟨"GET", ⟨"http", "//localhost:8081/jobs/metrics", false, "get=m1%2Cm2", ""⟩,
            [], none⟩] := rfl
    rw [e] at s2
    cases s2
    rfl
  · have e : sent ((⟨"localhost:8081?agg=z", replyWith "\x7b\x7d"⟩ : Client).JobMetrics
        plainPlatform { Metrics := ["m1"] })
        = [⟨"GET", ⟨"http", "//localhost:8081", false, "agg=z%2Fjobs%2Fmetrics&get=m1", ""⟩,
            [], none⟩] := rfl
    rw [e] at s3
    cases s3
    rfl

/-- C3 fails as stated: with the jar id `job.jar?programArg=x` and no program
argument, the request goes out with the key `programArg`; with the arguments
`a`, `b` it goes out with the key twice. -/
theorem RunJar_programArg_from_jar_id :
    ((sent ((localClient "\x7b\x7d").RunJar plainPlatform
        { JarID := "job.jar?programArg=x", ProgramArg := [] })).map
          fun req => (req.URL.RawQuery, url.Values.lookup req.URL.Query "programArg"))
      = [("programArg=x%2Frun", ["x/run"])]
    ∧ ((sent ((localClient "\x7b\x7d").RunJar plainPlatform
        { JarID := "job.jar?programArg=x", ProgramArg := ["a", "b"] })).map
          fun req => (req.URL.RawQuery, url.Values.lookup req.URL.Query "programArg"))
      = [("programArg=x%2Frun&programArg=a%2Cb", ["x/run", "a,b"])] :=
  ⟨rfl, rfl⟩

/-! ## C4: the URL of a path -/

theorem hasPrefix_http (addr : String)
    (h : strings.HasPrefix addr "http://" = true ∨ strings.HasPrefix addr "https://" = true) :
    strings.HasPrefix addr "http" = true := by
  simp only [strings.HasPrefix, List.isPrefixOf_iff_prefix] at h ⊢
  rcases h with h | h
  · exact List.IsPrefix.trans (⟨"://".data, rfl⟩ : "http".data <+: "http://".data) h
  · exact List.IsPrefix.trans (⟨"s://".data, rfl⟩ : "http".data <+: "https://".data) h

/-- C4, as the code has it: `Client.url(p)` is the address followed by `p` when the
address begins with `http://` or `https://`, and `http://` followed by the
address and `p` when the address does not begin with `http`. -/
theorem url_of_address (c : Client) (path : String) :
    ((strings.HasPrefix c.Addr "http://" = true ∨ strings.HasPrefix c.Addr "https://" = true) →
      c.url path = c.Addr ++ path)
    ∧ (strings.HasPrefix c.Addr "http" = false → c.url path = "http://" ++ c.Addr ++ path) := by
  constructor
  · intro h
    simp [Client.url, hasPrefix_http _ h]
  · intro h
    simp [Client.url, h]

/-- C4 at the addresses `https://flink.example.org` and `localhost:8081`. -/
theorem url_of_address_witness :
    (⟨"https://flink.example.org", replyWith ""⟩ : Client).url "/jobs/overview"
      = "https://flink.example.org/jobs/overview"
    ∧ (localClient "").url "/jobs/overview" = "http://localhost:8081/jobs/overview" :=
  ⟨(url_of_address ⟨"https://flink.example.org", replyWith ""⟩ "/jobs/overview").1 (Or.inr rfl),
    (url_of_address (localClient "") "/jobs/overview").2 rfl⟩

/-- C4 fails as stated: the address `ftp://flink.example.org:8081` is a full URL
with the scheme `ftp`, and `url` puts `http://` before it; the address
`httpd.example.org:8081` is a bare host and port, and `url` puts nothing before it. -/
theorem url_not_by_scheme :
    getScheme "ftp://flink.example.org:8081".data
      = .ok ("ftp".data, "//flink.example.org:8081".data)
    ∧ (⟨"ftp://flink.example.org:8081", replyWith ""⟩ : Client).url "/cluster"
      = "http://ftp://flink.example.org:8081/cluster"
    ∧ (⟨"ftp://flink.example.org:8081", replyWith ""⟩ : Client).url "/cluster"
      ≠ "ftp://flink.example.org:8081" ++ "/cluster"
    ∧ (⟨"httpd.example.org:8081", replyWith ""⟩ : Client).url "/cluster"
      = "httpd.example.org:8081/cluster"
    ∧ (⟨"httpd.example.org:8081", replyWith ""⟩ : Client).url "/cluster"
      ≠ "http://" ++ "httpd.example.org:8081" ++ "/cluster" :=
  ⟨rfl, rfl, by decide, rfl, by decide⟩

/-! ## C5: the requests of the operations called with required parameters only -/

theorem newRequest_of_parse (p : Platform) (m t : String) (body : Option String) (u : url.URL)
    (hm : m ≠ "") (htok : m.data.all isTokenChar = true) (h : url.Parse p t = .ok u) :
    http.NewRequest p m t body = (some ⟨m, u.stripEmptyPort, [], body⟩, none) := by
  unfold http.NewRequest
  simp only [hm, if_false, htok, if_true, h]

theorem stripEmptyPort_rawQuery (u : url.URL) : u.stripEmptyPort.RawQuery = u.RawQuery := by
  unfold url.URL.stripEmptyPort
  split <;> rfl

theorem stripEmptyPort_query (u : url.URL) : u.stripEmptyPort.Query = u.Query := by
  unfold url.URL.Query
  rw [stripEmptyPort_rawQuery]

theorem no_query_url (c : Client) (path : String) (ha : '?' ∉ c.Addr.data)
    (hp : '?' ∉ path.data) : '?' ∉ (c.url path).data := by
  unfold Client.url
  split
  · simp only [String.data_append, List.mem_append, not_or]
    exact ⟨ha, hp⟩
  · simp only [String.data_append, List.mem_append, not_or]
    exact ⟨⟨by decide, ha⟩, hp⟩

theorem query_of_empty (u : url.URL) (h : u.RawQuery = "") : u.Query = [] := by
  unfold url.URL.Query
  rw [h]
  rfl

theorem buildsRequest_of (p : Platform) (c : Client) (reqs : List http.Request)
    (m path : String) (body : Option String)
    (ha : '?' ∉ c.Addr.data) (hp : '?' ∉ path.data)
    (h : ∀ u, url.Parse p (c.url path) = .ok u → u.RawQuery = "" →
      reqs = [⟨m, u.stripEmptyPort, [], body⟩]) :
    BuildsRequest p c reqs m path body := by
  intro u hu
  have hq := parse_rawQuery_empty p _ u (no_query_url c path ha hp) hu
  exact ⟨h u hu hq.1, hq.1, hq.2⟩

/-- C5, as the code has it: for an address and identifiers without `?`, each
operation called with its required parameters only sends one request, with the
method of the table, no header, and as URL the one read from `Client.url` of the
path of the table (whenever that text is accepted as a URL); the URL has no
query.  The two operations with a payload send it as the body. -/
theorem required_parameters_only (p : Platform) (c : Client) (haddr : '?' ∉ c.Addr.data) :
    BuildsRequest p c (sent (c.Shutdown p)) "DELETE" "/cluster" none
    ∧ BuildsRequest p c (sent (c.Config p)) "GET" "/config" none
    ∧ BuildsRequest p c (sent (c.Jars p)) "GET" "/jars" none
    ∧ (∀ (id : String), '?' ∉ id.data →
      BuildsRequest p c (sent (c.DeleteJar p id)) "DELETE" ("/jars/" ++ id) none)
    ∧ (∀ (id : String), '?' ∉ id.data →
      BuildsRequest p c (sent (c.PlanJar p id)) "GET" ("/jars/" ++ id ++ "/plan") none)
    ∧ (∀ (id : String), '?' ∉ id.data →
      BuildsRequest p c (sent (c.RunJar p { JarID := id })) "POST" ("/jars/" ++ id ++ "/run") none)
    ∧ BuildsRequest p c (sent (c.JobManagerConfig p)) "GET" "/jobmanager/config" none
    ∧ BuildsRequest p c (sent (c.JobManagerMetrics p)) "GET" "/jobmanager/metrics" none
    ∧ BuildsRequest p c (sent (c.Jobs p)) "GET" "/jobs" none
    ∧ BuildsRequest p c (sent (c.JobsOverview p)) "GET" "/jobs/overview" none
    ∧ BuildsRequest p c (sent (c.JobMetrics p {})) "GET" "/jobs/metrics" none
    ∧ (∀ (id : String), '?' ∉ id.data →
      BuildsRequest p c (sent (c.Job p id)) "GET" ("/jobs/" ++ id) none)
    ∧ (∀ (id : String), '?' ∉ id.data →
      BuildsRequest p c (sent (c.StopJob p id)) "PATCH" ("/jobs/" ++ id) none)
    ∧ (∀ (id : String), '?' ∉ id.data →
      BuildsRequest p c (sent (c.Checkpoints p id)) "GET" ("/jobs/" ++ id ++ "/checkpoints") none)
    ∧ (∀ (id dir : String) (cancel : Bool), '?' ∉ id.data →
      BuildsRequest p c (sent (c.SavePoints p id dir cancel)) "POST" ("/jobs/" ++ id ++ "/savepoints")
        (some (json.Encode [("target-directory", .inl dir), ("cancel-job", .inr cancel)])))
    ∧ (∀ (id trigger : String), '?' ∉ id.data → '?' ∉ trigger.data →
      BuildsRequest p c (sent (c.TrackSavepoint p id trigger)) "GET"
        ("/jobs/" ++ id ++ "/savepoints/" ++ trigger) none)
    ∧ (∀ (id dir : String) (drain : Bool), '?' ∉ id.data →
      BuildsRequest p c (sent (c.StopJobWithSavepoint p id dir drain)) "POST" ("/jobs/" ++ id ++ "/stop")
        (some (json.Encode [("targetDirectory", .inl dir), ("drain", .inr drain)]))) := by
  refine ⟨?_, ?_, ?_, ?_, ?_, ?_, ?_, ?_, ?_, ?_, ?_, ?_, ?_, ?_, ?_, ?_, ?_⟩
  · refine buildsRequest_of p c _ _ _ _ haddr (by decide) ?_
    intro u hu _
    have hreq := newRequest_of_parse p "DELETE" _ none u (by decide) (by decide) hu
    unfold Client.Shutdown
    simp only [hreq]
    exact sent_exchangeOnly _ _
  · refine buildsRequest_of p c _ _ _ _ haddr (by decide) ?_
    intro u hu _
    have hreq := newRequest_of_parse p "GET" _ none u (by decide) (by decide) hu
    unfold Client.Config
    simp only [hreq]
    exact sent_exchange _ _ _ _ _
  · refine buildsRequest_of p c _ _ _ _ haddr (by decide) ?_
    intro u hu _
    have hreq := newRequest_of_parse p "GET" _ none u (by decide) (by decide) hu
    unfold Client.Jars
    simp only [hreq]
    exact sent_exchange _ _ _ _ _
  · intro id hid
    refine buildsRequest_of p c _ _ _ _ haddr
      (by simp only [String.data_append, List.mem_append, not_or]; exact ⟨by decide, hid⟩) ?_
    intro u hu _
    have hreq := newRequest_of_parse p "DELETE" _ none u (by decide) (by decide) hu
    unfold Client.DeleteJar
    simp only [hreq]
    exact sent_exchangeOnly _ _
  · intro id hid
    refine buildsRequest_of p c _ _ _ _ haddr
      (by simp only [String.data_append, List.mem_append, not_or]; exact ⟨⟨by decide, hid⟩, by decide⟩) ?_
    intro u hu _
    have hreq := newRequest_of_parse p "GET" _ none u (by decide) (by decide) hu
    unfold Client.PlanJar
    simp only [hreq]
    exact sent_exchange _ _ _ _ _
  · intro id hid
    refine buildsRequest_of p c _ _ _ _ haddr
      (by simp only [String.data_append, List.mem_append, not_or]; exact ⟨⟨by decide, hid⟩, by decide⟩) ?_
    intro u hu hq
    have hreq := newRequest_of_parse p "POST" _ none u (by decide) (by decide) hu
    rw [RunJar_eq p c { JarID := id } _ hreq, sent_exchange]
    have hq' : u.stripEmptyPort.RawQuery = "" := by rw [stripEmptyPort_rawQuery, hq]
    have hz : runQuery (url.URL.Query u.stripEmptyPort) { JarID := id } = [] := by
      rw [query_of_empty _ hq']
      rfl
    simp only [hz]
    have he : url.Values.Encode [] = u.stripEmptyPort.RawQuery := by rw [hq']; rfl
    rw [he]
  · refine buildsRequest_of p c _ _ _ _ haddr (by decide) ?_
    intro u hu _
    have hreq := newRequest_of_parse p "GET" _ none u (by decide) (by decide) hu
    unfold Client.JobManagerConfig
    simp only [hreq]
    exact sent_exchange _ _ _ _ _
  · refine buildsRequest_of p c _ _ _ _ haddr (by decide) ?_
    intro u hu _
    have hreq := newRequest_of_parse p "GET" _ none u (by decide) (by decide) hu
    unfold Client.JobManagerMetrics
    simp only [hreq]
    exact sent_exchange _ _ _ _ _
  · refine buildsRequest_of p c _ _ _ _ haddr (by decide) ?_
    intro u hu _
    have hreq := newRequest_of_parse p "GET" _ none u (by decide) (by decide) hu
    unfold Client.Jobs
    simp only [hreq]
    exact sent_exchange _ _ _ _ _
  · refine buildsRequest_of p c _ _ _ _ haddr (by decide) ?_
    intro u hu _
    have hreq := newRequest_of_parse p "GET" _ none u (by decide) (by decide) hu
    unfold Client.JobsOverview
    simp only [hreq]
    exact sent_exchange _ _ _ _ _
  · refine buildsRequest_of p c _ _ _ _ haddr (by decide) ?_
    intro u hu hq
    have hreq := newRequest_of_parse p "GET" _ none u (by decide) (by decide) hu
    rw [JobMetrics_eq p c {} _ hreq, sent_exchange]
    have hq' : u.stripEmptyPort.RawQuery = "" := by rw [stripEmptyPort_rawQuery, hq]
    have hz : metricsQuery (url.URL.Query u.stripEmptyPort) {} = [] := by
      rw [query_of_empty _ hq']
      rfl
    simp only [hz]
    have he : url.Values.Encode [] = u.stripEmptyPort.RawQuery := by rw [hq']; rfl
    rw [he]
  · intro id hid
    refine buildsRequest_of p c _ _ _ _ haddr
      (by simp only [String.data_append, List.mem_append, not_or]; exact ⟨by decide, hid⟩) ?_
    intro u hu _
    have hreq := newRequest_of_parse p "GET" _ none u (by decide) (by decide) hu
    unfold Client.Job
    simp only [hreq]
    exact sent_exchange _ _ _ _ _
  · intro id hid
    refine buildsRequest_of p c _ _ _ _ haddr
      (by simp only [String.data_append, List.mem_append, not_or]; exact ⟨by decide, hid⟩) ?_
    intro u hu _
    have hreq := newRequest_of_parse p "PATCH" _ none u (by decide) (by decide) hu
    unfold Client.StopJob
    simp only [hreq]
    exact sent_exchangeOnly _ _
  · intro id hid
    refine buildsRequest_of p c _ _ _ _ haddr
      (by simp only [String.data_append, List.mem_append, not_or]; exact ⟨⟨by decide, hid⟩, by decide⟩) ?_
    intro u hu _
    have hreq := newRequest_of_parse p "GET" _ none u (by decide) (by decide) hu
    unfold Client.Checkpoints
    simp only [hreq]
    exact sent_exchange _ _ _ _ _
  · intro id dir cancel hid
    refine buildsRequest_of p c _ _ _ _ haddr
      (by simp only [String.data_append, List.mem_append, not_or]; exact ⟨⟨by decide, hid⟩, by decide⟩) ?_
    intro u hu _
    have hreq := newRequest_of_parse p "POST" _ (some (json.Encode [("target-directory", .inl dir), ("cancel-job", .inr cancel)])) u (by decide) (by decide) hu
    unfold Client.SavePoints
    simp only [hreq]
    exact sent_exchange _ _ _ _ _
  · intro id trigger hid htr
    refine buildsRequest_of p c _ _ _ _ haddr
      (by simp only [String.data_append, List.mem_append, not_or]
          exact ⟨⟨⟨by decide, hid⟩, by decide⟩, htr⟩) ?_
    intro u hu _
    have hreq := newRequest_of_parse p "GET" _ none u (by decide) (by decide) hu
    unfold Client.TrackSavepoint
    simp only [hreq]
    exact sent_exchange _ _ _ _ _
  · intro id dir drain hid
    refine buildsRequest_of p c _ _ _ _ haddr
      (by simp only [String.data_append, List.mem_append, not_or]; exact ⟨⟨by decide, hid⟩, by decide⟩) ?_
    intro u hu _
    have hreq := newRequest_of_parse p "POST" _ (some (json.Encode [("targetDirectory", .inl dir), ("drain", .inr drain)])) u (by decide) (by decide) hu
    unfold Client.StopJobWithSavepoint
    simp only [hreq]
    exact sent_exchange _ _ _ _ _

/-- C5 at the job manager `localhost:8081`; and at the address `localhost:`, whose
empty port the request does not carry. -/
theorem required_parameters_only_witness :
    '?' ∉ (localClient "\x7b\x7d").Addr.data
    ∧ sent ((localClient "\x7b\x7d").Shutdown plainPlatform) = [localRequest "DELETE" "/cluster" none]
    ∧ sent ((localClient "\x7b\x7d").RunJar plainPlatform { JarID := "job.jar" })
      = [localRequest "POST" "/jars/job.jar/run" none]
    ∧ sent ((localClient "\x7b\x7d").JobMetrics plainPlatform {})
      = [localRequest "GET" "/jobs/metrics" none]
    ∧ sent ((localClient "\x7b\x7d").StopJob plainPlatform "4d2c") = [localRequest "PATCH" "/jobs/4d2c" none]
    ∧ sent ((localClient "\x7b\x7d").TrackSavepoint plainPlatform "4d2c" "9a1f")
      = [localRequest "GET" "/jobs/4d2c/savepoints/9a1f" none]
    ∧ sent ((⟨"localhost:", replyWith "\x7b\x7d"⟩ : Client).Jobs plainPlatform)
      = [⟨"GET", ⟨"http", "//localhost/jobs", false, "", ""⟩, [], none⟩] := by
  have h := required_parameters_only plainPlatform (localClient "\x7b\x7d") (by decide)
  have h' := required_parameters_only plainPlatform ⟨"localhost:", replyWith "\x7b\x7d"⟩
    (by decide)
  exact ⟨by decide,
    (h.1 (localRequest "DELETE" "/cluster" none).URL rfl).1,
    (h.2.2.2.2.2.1 "job.jar" (by decide) (localRequest "POST" "/jars/job.jar/run" none).URL rfl).1,
    (h.2.2.2.2.2.2.2.2.2.2.1 (localRequest "GET" "/jobs/metrics" none).URL rfl).1,
    (h.2.2.2.2.2.2.2.2.2.2.2.2.1 "4d2c" (by decide)
      (localRequest "PATCH" "/jobs/4d2c" none).URL rfl).1,
    (h.2.2.2.2.2.2.2.2.2.2.2.2.2.2.2.1 "4d2c" "9a1f" (by decide) (by decide)
      (localRequest "GET" "/jobs/4d2c/savepoints/9a1f" none).URL rfl).1,
    (h'.2.2.2.2.2.2.2.2.1 ⟨"http", "//localhost:/jobs", false, "", ""⟩ rfl).1⟩

/-- C5 fails as stated: the job id `4d2c?x=1` gives the request of `Job` the query
`x=1`, and the jar id `job.jar?b=1&a=2` gives the request of `RunJar`, called
with no option, the query `a=2%2Frun&b=1`. -/
theorem query_from_identifier :
    sent ((localClient "\x7b\x7d").Job plainPlatform "4d2c?x=1")
      = [⟨"GET", ⟨"http", "//localhost:8081/jobs/4d2c", false, "x=1", ""⟩, [], none⟩]
    ∧ sent ((localClient "\x7b\x7d").RunJar plainPlatform { JarID := "job.jar?b=1&a=2" })
      = [⟨"POST", ⟨"http", "//localhost:8081/jars/job.jar", false, "a=2%2Frun&b=1", ""⟩,
          [], none⟩] :=
  ⟨rfl, rfl⟩

/-! ## C6: the body of SavePoints -/

/-- C6, as the code has it: when the URL text of `/jobs/{id}/savepoints` is
accepted, `SavePoints(id, "/tmp/sp", true)` sends one POST request, to the URL
`http.NewRequest` reads from that text, whose body is the text
`{"target-directory":"/tmp/sp","cancel-job":true}` followed by a line feed;
and for every directory `d` (a text, that is a Go string that is UTF-8) and flag
`b` the body is a JSON text, ending in a line feed, that reads as the object with
the two members `target-directory` and `cancel-job`, in that order, holding `d`
and `b`. -/
theorem SavePoints_body (p : Platform) (c : Client) (jobID : String) (u : url.URL)
    (hu : url.Parse p (c.url ("/jobs/" ++ jobID ++ "/savepoints")) = .ok u) :
    sent (c.SavePoints p jobID "/tmp/sp" true)
      = [⟨"POST", u.stripEmptyPort, [],
          some "\x7b\"target-directory\":\"/tmp/sp\",\"cancel-job\":true\x7d\n"⟩]
    ∧ ∀ (d : String) (b : Bool), ∃ body : String,
        sent (c.SavePoints p jobID d b) = [⟨"POST", u.stripEmptyPort, [], some body⟩]
        ∧ parseJSON body
          = some (.object [("target-directory", .string d), ("cancel-job", .bool b)])
        ∧ body.data.getLast? = some '\n' := by
  have hs : ∀ (d : String) (b : Bool), sent (c.SavePoints p jobID d b)
      = [⟨"POST", u.stripEmptyPort, [],
          some (json.Encode [("target-directory", .inl d), ("cancel-job", .inr b)])⟩] := by
    intro d b
    have hreq := newRequest_of_parse p "POST" _
      (some (json.Encode [("target-directory", .inl d), ("cancel-job", .inr b)])) u
      (by decide) (by decide) hu
    unfold Client.SavePoints
    simp only [hreq]
    exact sent_exchange _ _ _ _ _
  refine ⟨hs "/tmp/sp" true, ?_⟩
  intro d b
  refine ⟨_, hs d b, parseJSON_encode _ _ _ _, ?_⟩
  have e : (json.Encode [("target-directory", .inl d), ("cancel-job", .inr b)]).data
      = ('{' :: (encodeMembers [("target-directory", .inl d), ("cancel-job", .inr b)] ++ ['}']))
        ++ ['\n'] := by
    simp [json.Encode]
  rw [e, List.getLast?_concat]

/-- C6 at the job `4d2c` of the job manager `localhost:8081`. -/
theorem SavePoints_body_witness :
    url.Parse plainPlatform ((localClient "\x7b\x7d").url ("/jobs/" ++ "4d2c" ++ "/savepoints"))
      = .ok (localRequest "POST" "/jobs/4d2c/savepoints" none).URL
    ∧ sent ((localClient "\x7b\x7d").SavePoints plainPlatform "4d2c" "/tmp/sp" true)
      = [localRequest "POST" "/jobs/4d2c/savepoints"
          (some "\x7b\"target-directory\":\"/tmp/sp\",\"cancel-job\":true\x7d\n")] :=
  ⟨rfl, (SavePoints_body plainPlatform (localClient "\x7b\x7d") "4d2c"
    (localRequest "POST" "/jobs/4d2c/savepoints" none).URL rfl).1⟩

/-- C6 fails as stated: the body of `SavePoints("4d2c", "/tmp/sp", true)` is not the
text `{"target-directory":"/tmp/sp","cancel-job":true}`; a line feed follows it.
And not every job id gives a request to `/jobs/{id}/savepoints`: with the job id
`4d2c?x=1` the request goes to `/jobs/4d2c`, with the query `x=1/savepoints`. -/
theorem SavePoints_body_line_feed :
    (sent ((localClient "\x7b\x7d").SavePoints plainPlatform "4d2c" "/tmp/sp" true)).map
        (fun req => req.Body)
      = [some "\x7b\"target-directory\":\"/tmp/sp\",\"cancel-job\":true\x7d\n"]
    ∧ (sent ((localClient "\x7b\x7d").SavePoints plainPlatform "4d2c" "/tmp/sp" true)).map
        (fun req => req.Body)
      ≠ [some "\x7b\"target-directory\":\"/tmp/sp\",\"cancel-job\":true\x7d"]
    ∧ (sent ((localClient "\x7b\x7d").SavePoints plainPlatform "4d2c?x=1" "/tmp/sp" true)).map
        (fun req => req.URL)
      = [⟨"http", "//localhost:8081/jobs/4d2c", false, "x=1/savepoints", ""⟩] :=
  ⟨rfl, by decide, rfl⟩

/-! ## C7: RunJar when the request cannot be constructed -/

/-- C7, what the code does: when `http.NewRequest` fails, RunJar panics on the nil
request (`req.URL.Query()` comes before the test of `err`); it returns nothing
and sends nothing. -/
theorem RunJar_construction_failure (p : Platform) (c : Client) (opts : RunOpts)
    (err : GoError)
    (h : http.NewRequest p "POST" (c.url ("/jars/" ++ opts.JarID ++ "/run")) none
      = (none, some err)) :
    c.RunJar p opts = ⟨[], .panicked nilDereference⟩ := by
  unfold Client.RunJar
  simp only [h]
  rfl

/-- C7 at the jar id `job.jar` followed by a line feed: `http.NewRequest` refuses
the control character, RunJar panics, and PlanJar, which tests `err` first,
returns the error. -/
theorem RunJar_construction_failure_witness :
    http.NewRequest plainPlatform "POST"
        ((localClient "\x7b\x7d").url ("/jars/" ++ "job.jar\n" ++ "/run")) none
      = (none, some (.urlError "parse" "http://localhost:8081/jars/job.jar\n/run"
          "net/url: invalid control character in URL"))
    ∧ (localClient "\x7b\x7d").RunJar plainPlatform { JarID := "job.jar\n" }
      = ⟨[], .panicked nilDereference⟩
    ∧ (localClient "\x7b\x7d").PlanJar plainPlatform "job.jar\n"
      = ⟨[], .returned (PlanResp.zero,
          some (.urlError "parse" "http://localhost:8081/jars/job.jar\n/plan"
            "net/url: invalid control character in URL"))⟩ :=
  ⟨rfl, RunJar_construction_failure plainPlatform (localClient "\x7b\x7d") { JarID := "job.jar\n" }
    (.urlError "parse" "http://localhost:8081/jars/job.jar\n/run"
      "net/url: invalid control character in URL") rfl, rfl⟩

/-! ## C8: UploadJar when the file fails -/

/-- C8, what the code does: when the file cannot be opened, UploadJar returns the
error of opening with the zero `UploadResp` and sends nothing; when the file
opens and reading it fails, the error of reading is dropped and the request is
sent, with what was read as the content of the form file. -/
theorem UploadJar_file_errors (p : Platform) (c : Client) (fpath : String) :
    (∀ err, p.openFile fpath = .error err →
      c.UploadJar p fpath = ⟨[], .returned (UploadResp.zero, some err)⟩)
    ∧ (∀ data err u, p.openFile fpath = .ok (data, some err) →
      url.Parse p (c.url "/jars/upload") = .ok u →
      c.UploadJar p fpath = c.exchange p UploadResp UploadResp.zero
          ⟨"POST", u.stripEmptyPort, [("Content-Type", formDataContentType p.boundary)],
            some (multipartBody p.boundary "jarfile" (filepath.Base fpath) data)⟩
      ∧ sent (c.UploadJar p fpath)
        = [⟨"POST", u.stripEmptyPort, [("Content-Type", formDataContentType p.boundary)],
            some (multipartBody p.boundary "jarfile" (filepath.Base fpath) data)⟩]) := by
  constructor
  · intro err h
    unfold Client.UploadJar
    simp only [h]
    rfl
  · intro data err u h hu
    have hreq := newRequest_of_parse p "POST" _
      (some (multipartBody p.boundary "jarfile" (filepath.Base fpath) data)) u
      (by decide) (by decide) hu
    have e : c.UploadJar p fpath = c.exchange p UploadResp UploadResp.zero
        ⟨"POST", u.stripEmptyPort, [("Content-Type", formDataContentType p.boundary)],
          some (multipartBody p.boundary "jarfile" (filepath.Base fpath) data)⟩ := by
      unfold Client.UploadJar
      simp only [h, hreq]
      rfl
    exact ⟨e, by rw [e, sent_exchange]⟩

/-- C8 at the path `/opt/jobs`, a directory: it opens, reading it fails, and
UploadJar sends the request with an empty file and returns what the server
answers, without error. -/
theorem UploadJar_file_errors_witness :
    plainPlatform.openFile "/opt/jobs"
      = .ok ("", some (.external "read /opt/jobs: is a directory"))
    ∧ sent ((localClient "\x7b\"status\":\"success\"\x7d").UploadJar plainPlatform "/opt/jobs")
      = [⟨"POST", ⟨"http", "//localhost:8081/jars/upload", false, "", ""⟩,
          [("Content-Type", "multipart/form-data; boundary=5d0e1f")],
          some ("--5d0e1f\r\nContent-Disposition: form-data; name=\"jarfile\"; filename=\"jobs\"\r\n"
            ++ "Content-Type: application/octet-stream\r\n\r\n\r\n--5d0e1f--\r\n")⟩]
    ∧ ((localClient "\x7b\"status\":\"success\"\x7d").UploadJar plainPlatform "/opt/jobs").out
      = .returned (.struct [("FileName", .str ""), ("Status", .str "success")], none) :=
  ⟨rfl, ((UploadJar_file_errors plainPlatform (localClient "\x7b\"status\":\"success\"\x7d")
      "/opt/jobs").2 "" (.external "read /opt/jobs: is a directory")
      ⟨"http", "//localhost:8081/jars/upload", false, "", ""⟩ rfl rfl).2, rfl⟩

/-! ## C9: a transport error is returned as it is -/

theorem surfaces_exchange (p : Platform) (c : Client) (t : GoType) (r : GoValue)
    (req : http.Request) :
    SurfacesTransportError c (c.exchange p t r req) (some req) (fun e => (r, some e)) := by
  refine ⟨sent_exchange p c t r req, ?_⟩
  intro b e hdo
  have hrun : c.exchange p t r req = ⟨[.send req], .returned (r, some e)⟩ := by
    unfold Client.exchange Client.perform Run.andThen
    simp only [hdo]
    rfl
  rw [hrun]
  exact ⟨rfl, rfl⟩

theorem surfaces_exchangeOnly (c : Client) (req : http.Request) :
    SurfacesTransportError c (c.exchangeOnly req) (some req) (fun e => some e) := by
  refine ⟨sent_exchangeOnly c req, ?_⟩
  intro b e hdo
  have hrun : c.exchangeOnly req = ⟨[.send req], .returned (some e)⟩ := by
    unfold Client.exchangeOnly Client.perform Run.andThen
    simp only [hdo]
    rfl
  rw [hrun]
  exact ⟨rfl, rfl⟩

/-- The operations that decode a response, after `http.NewRequest`. -/
theorem surfaces_decoding (p : Platform) (c : Client) (t : GoType) (r : GoValue)
    (x : Option http.Request × Option GoError) :
    SurfacesTransportError c
      (match x with
        | (_, some err) => Run.ret (r, some err)
        | (none, none) => Run.panic nilDereference
        | (some req, none) => c.exchange p t r req)
      (requestOf x) (fun e => (r, some e)) := by
  rcases x with ⟨_ | req, _ | err⟩
  · exact (rfl : sent (Run.panic nilDereference : Run (GoValue × Option GoError)) = [])
  · exact (rfl : sent (Run.ret (r, some err)) = [])
  · exact surfaces_exchange p c t r req
  · exact (rfl : sent (Run.ret (r, some err)) = [])

/-- The operations without a response, after `http.NewRequest`. -/
theorem surfaces_only (c : Client) (x : Option http.Request × Option GoError) :
    SurfacesTransportError c
      (match x with
        | (_, some err) => Run.ret (some err)
        | (none, none) => Run.panic nilDereference
        | (some req, none) => c.exchangeOnly req)
      (requestOf x) (fun e => some e) := by
  rcases x with ⟨_ | req, _ | err⟩
  · exact (rfl : sent (Run.panic nilDereference : Run (Option GoError)) = [])
  · exact (rfl : sent (Run.ret (some err)) = [])
  · exact surfaces_exchangeOnly c req
  · exact (rfl : sent (Run.ret (some err)) = [])

/-- C9: for every operation and every input, the request the operation has built
(the one of `http.NewRequest`, with the query RunJar and JobMetrics give it and
the header UploadJar gives it) is handed to the transport, and no other; when
the transport answers it with an error `e`, the operation returns `e` itself
with the zero value of its response type (or `e` alone, when it has no
response), and nothing is handed to the JSON decoder: the run is the one call of
the transport and that return.  When no request is built (the URL text or the
file is refused, or the operation is SubmitJob), the transport is not called. -/
theorem transport_error_returned (p : Platform) (c : Client) (jarid jobID triggerId dir fpath : String)
    (flag : Bool) (opts : RunOpts) (mopts : JobMetricsOpts) :
    SurfacesTransportError c (c.Shutdown p)
      (requestOf (http.NewRequest p "DELETE" (c.url "/cluster") none)) (fun e => some e)
    ∧ SurfacesTransportError c (c.DeleteJar p jarid)
      (requestOf (http.NewRequest p "DELETE" (c.url ("/jars/" ++ jarid)) none)) (fun e => some e)
    ∧ SurfacesTransportError c (c.StopJob p jobID)
      (requestOf (http.NewRequest p "PATCH" (c.url ("/jobs/" ++ jobID)) none)) (fun e => some e)
    ∧ SurfacesTransportError c (c.Config p)
      (requestOf (http.NewRequest p "GET" (c.url "/config") none))
      (fun e => (ConfigResp.zero, some e))
    ∧ SurfacesTransportError c (c.Jars p)
      (requestOf (http.NewRequest p "GET" (c.url "/jars") none))
      (fun e => (JarsResp.zero, some e))
    ∧ SurfacesTransportError c (c.PlanJar p jarid)
      (requestOf (http.NewRequest p "GET" (c.url ("/jars/" ++ jarid ++ "/plan")) none))
      (fun e => (PlanResp.zero, some e))
    ∧ SurfacesTransportError c (c.JobManagerConfig p)
      (requestOf (http.NewRequest p "GET" (c.url "/jobmanager/config") none))
      (fun e => ((GoType.slice KV).zero, some e))
    ∧ SurfacesTransportError c (c.JobManagerMetrics p)
      (requestOf (http.NewRequest p "GET" (c.url "/jobmanager/metrics") none))
      (fun e => ((GoType.slice Metric).zero, some e))
    ∧ SurfacesTransportError c (c.Jobs p)
      (requestOf (http.NewRequest p "GET" (c.url "/jobs") none))
      (fun e => (JobsResp.zero, some e))
    ∧ SurfacesTransportError c (c.JobsOverview p)
      (requestOf (http.NewRequest p "GET" (c.url "/jobs/overview") none))
      (fun e => (OverviewResp.zero, some e))
    ∧ SurfacesTransportError c (c.Job p jobID)
      (requestOf (http.NewRequest p "GET" (c.url ("/jobs/" ++ jobID)) none))
      (fun e => (JobResp.zero, some e))
    ∧ SurfacesTransportError c (c.Checkpoints p jobID)
      (requestOf (http.NewRequest p "GET" (c.url ("/jobs/" ++ jobID ++ "/checkpoints")) none))
      (fun e => (checkpointsResp.zero, some e))
    ∧ SurfacesTransportError c (c.SavePoints p jobID dir flag)
      (requestOf (http.NewRequest p "POST" (c.url ("/jobs/" ++ jobID ++ "/savepoints"))
        (some (json.Encode [("target-directory", .inl dir), ("cancel-job", .inr flag)]))))
      (fun e => (SavePointsResp.zero, some e))
    ∧ SurfacesTransportError c (c.TrackSavepoint p jobID triggerId)
      (requestOf (http.NewRequest p "GET"
        (c.url ("/jobs/" ++ jobID ++ "/savepoints/" ++ triggerId)) none))
      (fun e => (TrackSavepointResp.zero, some e))
    ∧ SurfacesTransportError c (c.StopJobWithSavepoint p jobID dir flag)
      (requestOf (http.NewRequest p "POST" (c.url ("/jobs/" ++ jobID ++ "/stop"))
        (some (json.Encode [("targetDirectory", .inl dir), ("drain", .inr flag)]))))
      (fun e => (StopJobResp.zero, some e))
    ∧ SurfacesTransportError c (c.UploadJar p fpath)
      (match p.openFile fpath with
        | .error _ => none
        | .ok file =>
          (requestOf (http.NewRequest p "POST" (c.url "/jars/upload")
            (some (multipartBody p.boundary "jarfile" (filepath.Base fpath) file.1)))).map
            fun req => { req with
              Header := req.Header ++ [("Content-Type", formDataContentType p.boundary)] })
      (fun e => (UploadResp.zero, some e))
    ∧ SurfacesTransportError c (c.RunJar p opts)
      ((requestOf (http.NewRequest p "POST" (c.url ("/jars/" ++ opts.JarID ++ "/run")) none)).map
        fun req => { req with URL := { req.URL with
          RawQuery := url.Values.Encode (runQuery req.URL.Query opts) } })
      (fun e => (RunResp.zero, some e))
    ∧ SurfacesTransportError c (c.JobMetrics p mopts)
      ((requestOf (http.NewRequest p "GET" (c.url "/jobs/metrics") none)).map
        fun req => { req with URL := { req.URL with
          RawQuery := url.Values.Encode (metricsQuery req.URL.Query mopts) } })
      (fun e => (GoType.mapAny.zero, some e))
    ∧ SurfacesTransportError c c.SubmitJob none (fun e => some e) := by
  refine ⟨?_, ?_, ?_, ?_, ?_, ?_, ?_, ?_, ?_, ?_, ?_, ?_, ?_, ?_, ?_, ?_, ?_, ?_, ?_⟩
  · unfold Client.Shutdown
    exact surfaces_only c _
  · unfold Client.DeleteJar
    exact surfaces_only c _
  · unfold Client.StopJob
    exact surfaces_only c _
  · unfold Client.Config
    exact surfaces_decoding p c _ _ _
  · unfold Client.Jars
    exact surfaces_decoding p c _ _ _
  · unfold Client.PlanJar
    exact surfaces_decoding p c _ _ _
  · unfold Client.JobManagerConfig
    exact surfaces_decoding p c _ _ _
  · unfold Client.JobManagerMetrics
    exact surfaces_decoding p c _ _ _
  · unfold Client.Jobs
    exact surfaces_decoding p c _ _ _
  · unfold Client.JobsOverview
    exact surfaces_decoding p c _ _ _
  · unfold Client.Job
    exact surfaces_decoding p c _ _ _
  · unfold Client.Checkpoints
    exact surfaces_decoding p c _ _ _
  · unfold Client.SavePoints
    exact surfaces_decoding p c _ _ _
  · unfold Client.TrackSavepoint
    exact surfaces_decoding p c _ _ _
  · unfold Client.StopJobWithSavepoint
    exact surfaces_decoding p c _ _ _
  · unfold Client.UploadJar
    simp only []
    cases p.openFile fpath with
    | error err => exact (rfl : sent (Run.ret (UploadResp.zero, some err)) = [])
    | ok file =>
      simp only []
      rcases http.NewRequest p "POST" (c.url "/jars/upload")
          (some (multipartBody p.boundary "jarfile" (filepath.Base fpath) file.1))
        with ⟨_ | req, _ | err⟩
      · exact (rfl : sent (Run.panic nilDereference : Run (GoValue × Option GoError)) = [])
      · exact (rfl : sent (Run.ret (UploadResp.zero, some err)) = [])
      · exact surfaces_exchange p c _ _ _
      · exact (rfl : sent (Run.ret (UploadResp.zero, some err)) = [])
  · unfold Client.RunJar
    simp only []
    rcases http.NewRequest p "POST" (c.url ("/jars/" ++ opts.JarID ++ "/run")) none
      with ⟨_ | req, _ | err⟩
    · exact (rfl : sent (Run.panic nilDereference : Run (GoValue × Option GoError)) = [])
    · exact (rfl : sent (Run.panic nilDereference : Run (GoValue × Option GoError)) = [])
    · exact surfaces_exchange p c _ _ _
    · exact (rfl : sent (Run.ret (RunResp.zero, some err)) = [])
  · unfold Client.JobMetrics
    simp only []
    rcases http.NewRequest p "GET" (c.url "/jobs/metrics") none with ⟨_ | req, _ | err⟩
    · exact (rfl : sent (Run.panic nilDereference : Run (GoValue × Option GoError)) = [])
    · exact (rfl : sent (Run.ret (GoType.mapAny.zero, some err)) = [])
    · exact surfaces_exchange p c _ _ _
    · exact (rfl : sent (Run.ret (GoType.mapAny.zero, some err)) = [])
  · exact (rfl : sent (Run.ret (some (GoError.errorString "not implement"))) = [])

/-- C9 with a transport that refuses every connection: Config, StopJob,
TrackSavepoint and RunJar hand their request to it and return that error with
the zero response, without any decoding. -/
theorem transport_error_returned_witness :
    (⟨"localhost:8081", failWith (.external "connection refused")⟩ : Client).Config plainPlatform
      = ⟨[.send (localRequest "GET" "/config" none)],
          .returned (ConfigResp.zero, some (.external "connection refused"))⟩
    ∧ (⟨"localhost:8081", failWith (.external "connection refused")⟩ : Client).StopJob
        plainPlatform "4d2c"
      = ⟨[.send (localRequest "PATCH" "/jobs/4d2c" none)],
          .returned (some (.external "connection refused"))⟩
    ∧ (⟨"localhost:8081", failWith (.external "connection refused")⟩ : Client).TrackSavepoint
        plainPlatform "4d2c" "9a1f"
      = ⟨[.send (localRequest "GET" "/jobs/4d2c/savepoints/9a1f" none)],
          .returned (TrackSavepointResp.zero, some (.external "connection refused"))⟩
    ∧ decoded ((⟨"localhost:8081", failWith (.external "connection refused")⟩ : Client).TrackSavepoint
        plainPlatform "4d2c" "9a1f") = []
    ∧ (⟨"localhost:8081", failWith (.external "connection refused")⟩ : Client).RunJar
        plainPlatform { JarID := "job.jar", Parallelism := 3 }
      = ⟨[.send ⟨"POST", ⟨"http", "//localhost:8081/jars/job.jar/run", false, "parallelism=3", ""⟩,
            [], none⟩],
          .returned (RunResp.zero, some (.external "connection refused"))⟩ := by
  have h := transport_error_returned plainPlatform
    ⟨"localhost:8081", failWith (.external "connection refused")⟩
    "job.jar" "4d2c" "9a1f" "/tmp/sp" "/opt/jobs/test.jar" true
    { JarID := "job.jar", Parallelism := 3 } {}
  have hc : SurfacesTransportError _ _ (some (localRequest "GET" "/config" none)) _ := h.2.2.2.1
  have hs : SurfacesTransportError _ _ (some (localRequest "PATCH" "/jobs/4d2c" none)) _ :=
    h.2.2.1
  have ht : SurfacesTransportError _ _
      (some (localRequest "GET" "/jobs/4d2c/savepoints/9a1f" none)) _ :=
    h.2.2.2.2.2.2.2.2.2.2.2.2.2.1
  have hr : SurfacesTransportError _ _
      (some ⟨"POST", ⟨"http", "//localhost:8081/jars/job.jar/run", false, "parallelism=3", ""⟩,
        [], none⟩) _ :=
    h.2.2.2.2.2.2.2.2.2.2.2.2.2.2.2.2.1
  exact ⟨(hc.2 "" _ rfl).1, (hs.2 "" _ rfl).1, (ht.2 "" _ rfl).1, (ht.2 "" _ rfl).2,
    (hr.2 "" _ rfl).1⟩

/-! ## C10: the status of a savepoint -/

theorem TrackSavepoint_decodes (p : Platform) (c : Client) (jobID triggerId : String)
    (req0 : http.Request) (body : String) (doc : JSON)
    (hreq : http.NewRequest p "GET" (c.url ("/jobs/" ++ jobID ++ "/savepoints/" ++ triggerId)) none
      = (some req0, none))
    (hdo : c.client.Do req0 = (body, none))
    (hdoc : parseJSON body = some doc) :
    c.TrackSavepoint p jobID triggerId
      = ⟨[.send req0, .decode body],
          .returned ((decodeValue p TrackSavepointResp doc TrackSavepointResp.zero).1,
            (decodeValue p TrackSavepointResp doc TrackSavepointResp.zero).2.head?)⟩ := by
  unfold Client.TrackSavepoint
  simp only [hreq]
  unfold Client.exchange Client.perform Run.andThen unmarshal json.Unmarshal
  simp only [hdo, hdoc]
  rfl

/-- C10: when the request of TrackSavepoint is built and the transport answers it
without error, with a body that reads as `{"status":{"id":"IN_PROGRESS"}}`,
TrackSavepoint returns no error and the status `SavepointStatusInProgress`
(all else zero); with `{"status":{"id":"COMPLETED"},"operation":{"location":L}}`
it returns no error, the status `SavepointStatusInCompleted`, the location `L`
and a zero failure cause; with a completed status whose operation carries a
failure cause it returns no error, the status `SavepointStatusInCompleted` and
the three fields of the cause.  The three results differ (the last two when a
field of the cause is not empty). -/
theorem TrackSavepoint_status (p : Platform) (c : Client) (jobID triggerId : String)
    (req0 : http.Request) (body : String)
    (hreq : http.NewRequest p "GET" (c.url ("/jobs/" ++ jobID ++ "/savepoints/" ++ triggerId)) none
      = (some req0, none))
    (hdo : c.client.Do req0 = (body, none)) :
    (parseJSON body = some inProgressDoc →
      (c.TrackSavepoint p jobID triggerId).out
        = .returned (trackResp SavepointStatusInProgress "" "" "" "", none))
    ∧ (∀ location, parseJSON body = some (completedDoc location) →
      (c.TrackSavepoint p jobID triggerId).out
        = .returned (trackResp SavepointStatusInCompleted location "" "" "", none))
    ∧ (∀ cls stack thrown, parseJSON body = some (failedDoc cls stack thrown) →
      (c.TrackSavepoint p jobID triggerId).out
        = .returned (trackResp SavepointStatusInCompleted "" cls stack thrown, none))
    ∧ (∀ location cls stack thrown, (cls ≠ "" ∨ stack ≠ "" ∨ thrown ≠ "") →
      trackResp SavepointStatusInProgress "" "" "" ""
          ≠ trackResp SavepointStatusInCompleted location "" "" ""
        ∧ trackResp SavepointStatusInProgress "" "" "" ""
          ≠ trackResp SavepointStatusInCompleted "" cls stack thrown
        ∧ trackResp SavepointStatusInCompleted location "" "" ""
          ≠ trackResp SavepointStatusInCompleted "" cls stack thrown) := by
  refine ⟨?_, ?_, ?_, ?_⟩
  · intro hdoc
    rw [TrackSavepoint_decodes p c jobID triggerId req0 body _ hreq hdo hdoc]
    rfl
  · intro location hdoc
    rw [TrackSavepoint_decodes p c jobID triggerId req0 body _ hreq hdo hdoc]
    rfl
  · intro cls stack thrown hdoc
    rw [TrackSavepoint_decodes p c jobID triggerId req0 body _ hreq hdo hdoc]
    rfl
  · intro location cls stack thrown hne
    refine ⟨?_, ?_, ?_⟩
    · intro h
      simp [trackResp, SavepointStatusInProgress, SavepointStatusInCompleted] at h
    · intro h
      simp [trackResp, SavepointStatusInProgress, SavepointStatusInCompleted] at h
    · intro h
      simp only [trackResp, GoValue.struct.injEq, List.cons.injEq, Prod.mk.injEq,
        GoValue.str.injEq, true_and, and_true] at h
      rcases hne with hne | hne | hne
      · exact hne h.1.1.symm
      · exact hne h.1.2.1.symm
      · exact hne h.1.2.2.symm

/-- C10 on three answers of the job manager `localhost:8081`. -/
theorem TrackSavepoint_status_witness :
    ((localClient "\x7b\"status\":\x7b\"id\":\"IN_PROGRESS\"\x7d\x7d").TrackSavepoint plainPlatform
        "4d2c" "9a1f").out
      = .returned (trackResp "IN_PROGRESS" "" "" "" "", none)
    ∧ ((localClient
        "\x7b\"status\":\x7b\"id\":\"COMPLETED\"\x7d,\"operation\":\x7b\"location\":\"file:/sp/savepoint-4d2c\"\x7d\x7d"
        ).TrackSavepoint plainPlatform "4d2c" "9a1f").out
      = .returned (trackResp "COMPLETED" "file:/sp/savepoint-4d2c" "" "" "", none)
    ∧ ((localClient ("\x7b\"status\":\x7b\"id\":\"COMPLETED\"\x7d,\"operation\":\x7b\"failure-cause\":"
        ++ "\x7b\"class\":\"E\",\"stack-trace\":\"at a\",\"serialized-throwable\":\"x\"\x7d\x7d\x7d")).TrackSavepoint plainPlatform "4d2c" "9a1f").out
      = .returned (trackResp "COMPLETED" "" "E" "at a" "x", none) :=
  ⟨(TrackSavepoint_status plainPlatform (localClient "\x7b\"status\":\x7b\"id\":\"IN_PROGRESS\"\x7d\x7d")
      "4d2c" "9a1f" (localRequest "GET" "/jobs/4d2c/savepoints/9a1f" none)
      "\x7b\"status\":\x7b\"id\":\"IN_PROGRESS\"\x7d\x7d" rfl rfl).1 rfl,
    (TrackSavepoint_status plainPlatform (localClient
      "\x7b\"status\":\x7b\"id\":\"COMPLETED\"\x7d,\"operation\":\x7b\"location\":\"file:/sp/savepoint-4d2c\"\x7d\x7d")
      "4d2c" "9a1f" (localRequest "GET" "/jobs/4d2c/savepoints/9a1f" none)
      "\x7b\"status\":\x7b\"id\":\"COMPLETED\"\x7d,\"operation\":\x7b\"location\":\"file:/sp/savepoint-4d2c\"\x7d\x7d"
      rfl rfl).2.1 "file:/sp/savepoint-4d2c" rfl,
    (TrackSavepoint_status plainPlatform
      (localClient ("\x7b\"status\":\x7b\"id\":\"COMPLETED\"\x7d,\"operation\":\x7b\"failure-cause\":"
        ++ "\x7b\"class\":\"E\",\"stack-trace\":\"at a\",\"serialized-throwable\":\"x\"\x7d\x7d\x7d"))
      "4d2c" "9a1f" (localRequest "GET" "/jobs/4d2c/savepoints/9a1f" none)
      ("\x7b\"status\":\x7b\"id\":\"COMPLETED\"\x7d,\"operation\":\x7b\"failure-cause\":"
        ++ "\x7b\"class\":\"E\",\"stack-trace\":\"at a\",\"serialized-throwable\":\"x\"\x7d\x7d\x7d")
      rfl rfl).2.2.1 "E" "at a" "x" rfl⟩

/-! ## Splitting what was joined -/

theorem splitSep_ne_nil (sep : Char) (l : List Char) : splitSep sep l ≠ [] := by
  cases l with
  | nil => simp [splitSep]
  | cons c cs =>
    simp only [splitSep]
    split
    · simp
    · split <;> simp

theorem splitSep_of_not_mem (sep : Char) (l : List Char) (h : sep ∉ l) :
    splitSep sep l = [l] := by
  induction l with
  | nil => rfl
  | cons c cs ih =>
    have hc : ¬ c = sep := fun e => h (by simp [e])
    have hcs : sep ∉ cs := fun e => h (by simp [e])
    simp [splitSep, hc, ih hcs]

theorem splitSep_append (sep : Char) (a t : List Char) (h : sep ∉ a) :
    splitSep sep (a ++ sep :: t) = a :: splitSep sep t := by
  induction a with
  | nil => simp [splitSep]
  | cons c cs ih =>
    have hc : ¬ c = sep := fun e => h (by simp [e])
    have hcs : sep ∉ cs := fun e => h (by simp [e])
    simp [splitSep, hc, ih hcs]

/-- Splitting a joined list at the commas gives the list back, when the list is
not empty and no element holds a comma. -/
theorem split_join (xs : List String) (hne : xs ≠ [])
    (h : ∀ x ∈ xs, ',' ∉ x.data) :
    strings.Split (strings.Join xs ",") ',' = xs := by
  induction xs with
  | nil => exact absurd rfl hne
  | cons a rest ih =>
    cases rest with
    | nil =>
      simp [strings.Split, strings.Join, splitSep_of_not_mem _ _ (h a (by simp))]
    | cons b rest' =>
      have ha := h a (by simp)
      have ih' := ih (by simp) (fun x hx => h x (by simp [hx]))
      simp only [strings.Split] at ih' ⊢
      simp only [strings.Join, String.data_append]
      rw [List.append_assoc]
      have e : ("," : String).data ++ (strings.Join (b :: rest') ",").data
          = ',' :: (strings.Join (b :: rest') ",").data := rfl
      rw [e, splitSep_append _ _ _ ha, List.map_cons, ih']

/-! ## C11: SubmitJob -/

/-- C11: for every client, SubmitJob returns a non-nil error, the one made by
`fmt.Errorf("not implement")`; it hands no request to the transport and
nothing to the decoder, and what it does depends on neither the address nor
the transport of the client (it takes no part in the construction of a URL or
of a request). -/
theorem SubmitJob_not_implemented (c : Client) :
    c.SubmitJob = ⟨[], .returned (some (.errorString "not implement"))⟩
    ∧ (∃ err, c.SubmitJob.out = .returned (some err))
    ∧ sent c.SubmitJob = []
    ∧ decoded c.SubmitJob = []
    ∧ ∀ c' : Client, c'.SubmitJob = c.SubmitJob :=
  ⟨rfl, ⟨_, rfl⟩, rfl, rfl, fun _ => rfl⟩

/-- C11 at a client whose address admits no URL and whose transport would fail. -/
theorem SubmitJob_not_implemented_witness :
    (⟨"\n", failWith (.external "connection refused")⟩ : Client).SubmitJob
      = ⟨[], .returned (some (.errorString "not implement"))⟩
    ∧ sent (⟨"\n", failWith (.external "connection refused")⟩ : Client).SubmitJob = [] :=
  ⟨(SubmitJob_not_implemented ⟨"\n", failWith (.external "connection refused")⟩).1,
    (SubmitJob_not_implemented ⟨"\n", failWith (.external "connection refused")⟩).2.2.1⟩

/-! ## C12: what the value of `programArg` tells of the list -/

/-- C12: the value RunJar gives `programArg` is `strings.Join(opts.ProgramArg, ",")`.
For lists that are not empty and whose elements hold no comma, splitting that
value at the commas gives the list back, so two such lists with the same value
are the same list; and when RunJar builds its request from such a list (the URL
carrying no `programArg` of its own), the one value of `programArg` in the
request splits into the list.  The lists `["a,b"]` and `["a", "b"]` differ, and
RunJar does the same with either, whatever the client and the other options. -/
theorem programArg_value (p : Platform) (c : Client) :
    (∀ xs : List String, xs ≠ [] → (∀ x ∈ xs, ',' ∉ x.data) →
      strings.Split (strings.Join xs ",") ',' = xs)
    ∧ (∀ xs ys : List String, xs ≠ [] → ys ≠ [] →
      (∀ x ∈ xs, ',' ∉ x.data) → (∀ y ∈ ys, ',' ∉ y.data) →
      strings.Join xs "," = strings.Join ys "," → xs = ys)
    ∧ (∀ (opts : RunOpts) (req0 : http.Request),
      http.NewRequest p "POST" (c.url ("/jars/" ++ opts.JarID ++ "/run")) none
        = (some req0, none) →
      url.Values.Has req0.URL.Query "programArg" = false →
      opts.ProgramArg ≠ [] → (∀ x ∈ opts.ProgramArg, ',' ∉ x.data) →
      ∃ req v, sent (c.RunJar p opts) = [req] ∧
        url.Values.lookup req.URL.Query "programArg" = [v] ∧
        v = strings.Join opts.ProgramArg "," ∧
        strings.Split v ',' = opts.ProgramArg)
    ∧ (["a,b"] : List String) ≠ ["a", "b"]
    ∧ (∀ opts : RunOpts,
      c.RunJar p { opts with ProgramArg := ["a,b"] }
        = c.RunJar p { opts with ProgramArg := ["a", "b"] }) := by
  refine ⟨split_join, ?_, ?_, by decide, ?_⟩
  · intro xs ys hx hy hxs hys h
    rw [← split_join xs hx hxs, ← split_join ys hy hys, h]
  · intro opts req0 hreq hown hne hfree
    obtain ⟨req, hsent, _, hlook⟩ := RunJar_query p c opts req0 hreq
    refine ⟨req, strings.Join opts.ProgramArg ",", hsent, ?_, rfl, split_join _ hne hfree⟩
    rw [hlook, lookup_runQuery_programArg, lookup_of_has_false _ _ hown, List.nil_append,
      if_pos hne]
  · intro opts
    rfl

/-- C12 at the job manager `localhost:8081`: the arguments `--in`, `x` go out as
`programArg=--in%2Cx`, whose value splits into them; the lists `["a,b"]` and
`["a", "b"]` both go out as `programArg=a%2Cb`. -/
theorem programArg_value_witness :
    (∃ req v, sent ((localClient "\x7b\x7d").RunJar plainPlatform
          { JarID := "job.jar", ProgramArg := ["--in", "x"] }) = [req] ∧
        url.Values.lookup req.URL.Query "programArg" = [v] ∧
        v = strings.Join ["--in", "x"] "," ∧
        strings.Split v ',' = ["--in", "x"])
    ∧ sent ((localClient "\x7b\x7d").RunJar plainPlatform
          { JarID := "job.jar", ProgramArg := ["a,b"] })
      = [⟨"POST", ⟨"http", "//localhost:8081/jars/job.jar/run", false, "programArg=a%2Cb", ""⟩,
          [], none⟩]
    ∧ sent ((localClient "\x7b\x7d").RunJar plainPlatform
          { JarID := "job.jar", ProgramArg := ["a", "b"] })
      = [⟨"POST", ⟨"http", "//localhost:8081/jars/job.jar/run", false, "programArg=a%2Cb", ""⟩,
          [], none⟩]
    ∧ strings.Split "a,b" ',' = ["a", "b"] :=
  ⟨(programArg_value plainPlatform (localClient "\x7b\x7d")).2.2.1
      { JarID := "job.jar", ProgramArg := ["--in", "x"] }
      (localRequest "POST" "/jars/job.jar/run" none) rfl rfl (by decide) (by decide),
    rfl, rfl, by decide⟩

end FlinkClient
